import Mathlib

/-!
# Verification of the selection-tool path graph engine

Shallow embedding of `js/selection/selectionTool.js`: the path normalizer
(the `Path` constructor), the vertex/edge graph model, the transform engine
(`Transform` and `Transform.prototype.transform`), and the topology editor
(`splitEdge`, `deleteVertex`, `createPath`, `Root.insert`).

JavaScript numbers are modelled by `JNum`: ordinary values are exact
rationals, and the special values `NaN` and `undefined` (which arise in the
source from reading absent object properties and from arithmetic on them)
are modelled explicitly.  DOM objects (SVG path segments, the circle
elements of vertices, the two-segment path elements of edges) are modelled
by records stored in id-indexed heaps so that the source's mutation through
shared object references is preserved.  Host geometry functions
(`getBBox`, `getTotalLength`) are modelled at the interface boundary.
-/

/-- A JavaScript number as used by the selection tool: an exact rational,
`NaN`, or `undefined` (the result of reading an absent property). -/
inductive JNum where
  | num (q : ℚ)
  | nan
  | undef
deriving DecidableEq, Repr

namespace JNum

/-- JavaScript addition: any operand that is not an ordinary number
(`NaN` or `undefined`) yields `NaN`. -/
def add : JNum → JNum → JNum
  | num a, num b => num (a + b)
  | _, _ => nan

/-- JavaScript subtraction. -/
def sub : JNum → JNum → JNum
  | num a, num b => num (a - b)
  | _, _ => nan

/-- JavaScript multiplication. -/
def mul : JNum → JNum → JNum
  | num a, num b => num (a * b)
  | _, _ => nan

/-- Truncation toward zero, as JavaScript's remainder operator uses: with
the reduced fraction's numerator and positive denominator, T-division of
the numerator by the denominator rounds toward zero. -/
def ratTrunc (q : ℚ) : ℤ := Int.tdiv q.num (q.den : ℤ)

/-- JavaScript division; the source only divides by the nonzero literal 3,
so the division-by-zero branch (Infinity in JavaScript) is unreachable and
mapped to `NaN`. -/
def div : JNum → JNum → JNum
  | num a, num b => if b = 0 then nan else num (a / b)
  | _, _ => nan

/-- JavaScript remainder `a % d` on numbers: `a - d * trunc (a / d)`. -/
def jmod : JNum → JNum → JNum
  | num a, num d => if d = 0 then nan else num (a - d * ratTrunc (a / d))
  | _, _ => nan

/-- JavaScript strict equality `===` on these values: `NaN` is not equal to
anything (itself included), while `undefined === undefined` holds. -/
def seq : JNum → JNum → Bool
  | num a, num b => decide (a = b)
  | undef, undef => true
  | _, _ => false

/-- JavaScript strict inequality `!==`. -/
def sne (a b : JNum) : Bool := !(seq a b)

@[simp] theorem add_num (a b : ℚ) : add (num a) (num b) = num (a + b) := rfl
@[simp] theorem sub_num (a b : ℚ) : sub (num a) (num b) = num (a - b) := rfl
@[simp] theorem mul_num (a b : ℚ) : mul (num a) (num b) = num (a * b) := rfl
@[simp] theorem seq_num (a b : ℚ) : seq (num a) (num b) = decide (a = b) := rfl
@[simp] theorem sne_num (a b : ℚ) : sne (num a) (num b) = !(decide (a = b)) := rfl
@[simp] theorem add_undef_left (b : JNum) : add undef b = nan := by cases b <;> rfl
@[simp] theorem add_undef_right (a : JNum) : add a undef = nan := by cases a <;> rfl

end JNum

/-- The canonical SVG path segment kinds that survive normalization
(absolute moveto, lineto, cubic curveto, elliptical arc, closepath). -/
inductive SegKind where
  | M | L | C | A | Z
deriving DecidableEq, Repr

/-- An SVG path segment object (`SVGPathSeg`).  Fields that the segment
kind does not carry read as `undefined`, exactly as reading an absent DOM
property does in the source. -/
structure SegData where
  kind : SegKind
  x : JNum := JNum.undef
  y : JNum := JNum.undef
  x1 : JNum := JNum.undef
  y1 : JNum := JNum.undef
  x2 : JNum := JNum.undef
  y2 : JNum := JNum.undef
  r1 : JNum := JNum.undef
  r2 : JNum := JNum.undef
  angle : JNum := JNum.undef
  largeArcFlag : Bool := false
  sweepFlag : Bool := false
deriving DecidableEq, Repr

/-- `element.createSVGPathSegMovetoAbs(x, y)`. -/
def mkMoveto (x y : JNum) : SegData := { kind := SegKind.M, x := x, y := y }

/-- `element.createSVGPathSegLinetoAbs(x, y)`. -/
def mkLineto (x y : JNum) : SegData := { kind := SegKind.L, x := x, y := y }

/-- `element.createSVGPathSegCurvetoCubicAbs(x, y, x1, y1, x2, y2)`. -/
def mkCubic (x y x1 y1 x2 y2 : JNum) : SegData :=
  { kind := SegKind.C, x := x, y := y, x1 := x1, y1 := y1, x2 := x2, y2 := y2 }

/-- `element.createSVGPathSegArcAbs(x, y, r1, r2, angle, largeArcFlag, sweepFlag)`. -/
def mkArc (x y r1 r2 angle : JNum) (laf sf : Bool) : SegData :=
  { kind := SegKind.A, x := x, y := y, r1 := r1, r2 := r2, angle := angle,
    largeArcFlag := laf, sweepFlag := sf }

/-- `element.createSVGPathSegClosePath()`. -/
def mkClose : SegData := { kind := SegKind.Z }

abbrev SegId := Nat
abbrev VId := Nat
abbrev EId := Nat
abbrev PId := Nat

/-- A `Vertex` object: the circle element's center (`cx`/`cy`), the smooth
flag, the back-reference to the path segment it anchors, and the non-owning
incoming/outgoing edge references. -/
structure VertexR where
  path : PId
  vx : JNum
  vy : JNum
  smooth : Bool := false
  segment : Option SegId := none
  incoming : Option EId := none
  outgoing : Option EId := none
deriving Repr

/-- An `Edge` object: the path segment it corresponds to, the two segments
of its own two-segment element (a moveto `elemFrom` and the drawing segment
`elemTo`), and non-owning start/end vertex references. -/
structure EdgeR where
  path : PId
  segment : Option SegId := none
  elemFrom : SegId
  elemTo : SegId
  start : Option VId := none
  endV : Option VId := none
deriving Repr

/-- A `Path` object: the segment list of its SVG element plus the owned
vertex and edge arrays, and the selection flag. -/
structure PathR where
  segList : List SegId := []
  vertices : List VId := []
  edges : List EId := []
  selected : Bool := false
deriving Repr

/-- Change notification kinds (`ChangeType`). -/
inductive ChangeTy where
  | Clear | Insert | Remove | Transform | Select
deriving DecidableEq, Repr

/-- The world: id-indexed heaps of segment, vertex, edge and path objects
(modelling the live object graph), the root's `paths` array, the released
objects (whose `release()` ran), and the emitted change notifications. -/
structure World where
  segHeap : SegId → SegData := fun _ => mkClose
  nextSeg : SegId := 0
  vHeap : VId → VertexR := fun _ => { path := 0, vx := JNum.undef, vy := JNum.undef }
  nextV : VId := 0
  eHeap : EId → EdgeR := fun _ => { path := 0, elemFrom := 0, elemTo := 0 }
  nextE : EId := 0
  pHeap : PId → PathR := fun _ => {}
  nextP : PId := 0
  paths : List PId := []
  releasedV : List VId := []
  releasedE : List EId := []
  releasedP : List PId := []
  changes : List (ChangeTy × Option PId) := []

/-- Point update of an id-indexed heap. -/
def hupd {α : Type} (h : Nat → α) (i : Nat) (v : α) : Nat → α :=
  fun j => if j = i then v else h j

@[simp] theorem hupd_same {α : Type} (h : Nat → α) (i : Nat) (v : α) :
    hupd h i v i = v := by simp [hupd]

@[simp] theorem hupd_other {α : Type} (h : Nat → α) (i j : Nat) (v : α)
    (hji : j ≠ i) : hupd h i v j = h j := by simp [hupd, hji]

namespace World

/-- Allocate a fresh segment object. -/
def allocSeg (w : World) (d : SegData) : World × SegId :=
  ({ w with segHeap := hupd w.segHeap w.nextSeg d, nextSeg := w.nextSeg + 1 },
   w.nextSeg)

/-- Mutate a segment object in place. -/
def updSeg (w : World) (i : SegId) (f : SegData → SegData) : World :=
  { w with segHeap := hupd w.segHeap i (f (w.segHeap i)) }

/-- Mutate a vertex object in place. -/
def updV (w : World) (i : VId) (f : VertexR → VertexR) : World :=
  { w with vHeap := hupd w.vHeap i (f (w.vHeap i)) }

/-- Mutate an edge object in place. -/
def updE (w : World) (i : EId) (f : EdgeR → EdgeR) : World :=
  { w with eHeap := hupd w.eHeap i (f (w.eHeap i)) }

/-- Mutate a path object in place. -/
def updP (w : World) (i : PId) (f : PathR → PathR) : World :=
  { w with pHeap := hupd w.pHeap i (f (w.pHeap i)) }

end World

/-- JavaScript `array.splice(i, 0, a)` index normalization: a negative
index counts from the end (clamped at 0), an index past the end appends. -/
def jsSpliceIns {α : Type} (l : List α) (i : ℤ) (a : α) : List α :=
  let n : ℕ := if i < 0 then (l.length + i).toNat else min i.toNat l.length
  l.insertIdx n a

/-- The `index || array.length` idiom used by `createVertex`/`createEdge`:
`undefined` and the falsy index `0` both become `array.length`. -/
def jsOrLen (idx : Option ℤ) (len : ℕ) : ℤ :=
  match idx with
  | none => (len : ℤ)
  | some i => if i = 0 then (len : ℤ) else i

/-- JavaScript `array.splice(array.indexOf(a), 1)`: removes the first
occurrence; when `a` is absent, `indexOf` yields `-1` and `splice(-1, 1)`
removes the last element. -/
def jsRemoveElem {α : Type} [DecidableEq α] (l : List α) (a : α) : List α :=
  match l.indexOf? a with
  | some i => l.eraseIdx i
  | none => l.dropLast

/-! ## Graph-model helper functions (`segmentIndex`, `createVertex`,
`createEdge`, `release`) -/

/-- `segmentIndex(segments, segment)`: position of a segment object in a
segment list (identity comparison, modelled by id equality), `undefined`
when absent.  A `null`/`undefined` segment reference matches nothing. -/
def segmentIndex (segs : List SegId) (seg : Option SegId) : Option ℕ :=
  match seg with
  | none => none
  | some s => segs.indexOf? s

/-- `createVertex(path, x, y, segment, index)`: allocates the circle
element, builds the `Vertex`, and splices it into `path.vertices` at
`index || path.vertices.length`. -/
def createVertex (w : World) (pid : PId) (x y : JNum) (segment : Option SegId)
    (index : Option ℤ) : World × VId :=
  let vid := w.nextV
  let v : VertexR := { path := pid, vx := x, vy := y, segment := segment }
  let w := { w with vHeap := hupd w.vHeap vid v, nextV := w.nextV + 1 }
  let w := w.updP pid (fun p =>
    { p with vertices := jsSpliceIns p.vertices (jsOrLen index p.vertices.length) vid })
  (w, vid)

/-- `createEdge(path, x, y, edgeItem, pathItem, index)`: builds the edge
element (a fresh moveto to `(x, y)` followed by the already-created drawing
segment object `edgeItem`), builds the `Edge` with `edge.segment =
pathItem`, and splices it into `path.edges` at
`index || path.edges.length`. -/
def createEdge (w : World) (pid : PId) (x y : JNum) (edgeItem : SegId)
    (pathItem : SegId) (index : Option ℤ) : World × EId :=
  let (w, fromId) := w.allocSeg (mkMoveto x y)
  let eid := w.nextE
  let e : EdgeR := { path := pid, segment := some pathItem,
                     elemFrom := fromId, elemTo := edgeItem }
  let w := { w with eHeap := hupd w.eHeap eid e, nextE := w.nextE + 1 }
  let w := w.updP pid (fun p =>
    { p with edges := jsSpliceIns p.edges (jsOrLen index p.edges.length) eid })
  (w, eid)

/-- `Vertex.prototype.release`: clears the segment and edge references and
removes the circle element. -/
def releaseVertex (w : World) (v : VId) : World :=
  let w := w.updV v (fun r => { r with segment := none, incoming := none, outgoing := none })
  { w with releasedV := v :: w.releasedV }

/-- `Edge.prototype.release`: clears the segment and vertex references and
removes the edge element. -/
def releaseEdge (w : World) (e : EId) : World :=
  let w := w.updE e (fun r => { r with segment := none, start := none, endV := none })
  { w with releasedE := e :: w.releasedE }

/-- `Path.prototype.release`: releases all owned edges and vertices and
removes the path element. -/
def releasePath (w : World) (pid : PId) : World :=
  let w := (w.pHeap pid).edges.foldl releaseEdge w
  let w := w.updP pid (fun p => { p with edges := [] })
  let w := (w.pHeap pid).vertices.foldl releaseVertex w
  let w := w.updP pid (fun p => { p with vertices := [] })
  { w with releasedP := pid :: w.releasedP }

/-- `root.change(action, path)`. -/
def change (w : World) (a : ChangeTy) (p : Option PId) : World :=
  { w with changes := (a, p) :: w.changes }

/-! ## The path normalizer (the `Path` constructor)

The constructor iterates over the element's mutable segment list
(`Iteration` over indices, an inner `Test` loop re-testing replaced or
inserted items).  It is embedded as structurally recursive functions over
the remaining input commands, with the already-processed prefix of the
mutable list kept as the path's `segList`:

* `segments.removeItem(index); continue Iteration` — the item is not
  appended and processing moves on;
* `segments.replaceItem(newItem, index); continue Test` — the handler for
  the replacement runs in place (a direct call);
* `segments.insertItemBefore(newItem, index); continue Test` — the handler
  for the inserted item runs first, then the current item's handler.

The single source loop that can fail to terminate is the closepath lineto
insertion (`initialX !== currentX`, forever true when a coordinate is
`NaN`); it is unrolled once and divergence is reported as `none`. -/

/-- The residue of the constructor's `prevType` string that the source can
observe: it is compared only against `"C"`, `"Q"`, `"M"`, `"z"` and `"Z"`,
so all other letters are behaviourally one class.  In particular the
fall-through cases that do not reassign `type` leave lowercase letters in
`prevType` (`"m"`, `"l"`, `"a"`), which never match the uppercase
comparisons; notably a relative moveto leaves `prevType = "m"`, which the
consecutive-moveto collapse (`case "M"`) does not match. -/
inductive PrevT where
  | pnull | pM | pZ | pC | pQ | pOther
deriving DecidableEq, Repr

/-- The local variables of the `Path` constructor loop. -/
structure NState where
  w : World
  pid : PId
  smooth : Bool := false
  edge : Option EId := none
  prevAssigned : Bool := false
  prevType : PrevT := PrevT.pnull
  prevX : JNum := JNum.undef
  prevY : JNum := JNum.undef
  initialVertex : Option VId := none
  initialSeg : Option SegId := none
  initialX : JNum := JNum.num 0
  initialY : JNum := JNum.num 0
  currentX : JNum := JNum.num 0
  currentY : JNum := JNum.num 0

/-- An accepted item stays in (or a replacement/insertion is placed into)
the element's segment list: allocate the segment object and append it to
the processed prefix. -/
def acceptSeg (st : NState) (d : SegData) : NState × SegId :=
  let (w, sid) := st.w.allocSeg d
  let w := w.updP st.pid (fun p => { p with segList := p.segList ++ [sid] })
  ({ st with w := w }, sid)

/-- `segments.removeItem(--index)` / `segments.removeItem(index - 1)`:
drop the most recently accepted item. -/
def popLastSeg (st : NState) : NState :=
  { st with w := st.w.updP st.pid (fun p => { p with segList := p.segList.dropLast }) }

/-- The tail of every accepted iteration:
`if (prevAssigned) prevAssigned = false; else prevType = type;`. -/
def finishItem (st : NState) (t : PrevT) : NState :=
  if st.prevAssigned then { st with prevAssigned := false }
  else { st with prevType := t }

/-- The `if (edgeItem) { ... }` block plus the surrounding bookkeeping for
a drawing command accepted with final coordinates `(x, y)`: append the path
item, create the vertex that starts the edge (a fresh subpath-initial
vertex consuming `initial`, or a chain vertex closing the previous edge),
and create the edge. -/
def edgeAccept (st : NState) (x y : JNum) (edgeItem pathItem : SegData)
    (t : PrevT) : NState :=
  let st := finishItem st t
  let (st, pathSid) := acceptSeg st pathItem
  let stv : NState × VId :=
    match st.edge with
    | none =>
        let (w, vid) := createVertex st.w st.pid st.initialX st.initialY st.initialSeg none
        ({ st with w := w, initialSeg := none, initialVertex := some vid }, vid)
    | some e =>
        let (w, vid) := createVertex st.w st.pid st.currentX st.currentY none none
        let w := w.updE e (fun r => { r with endV := some vid })
        let w := w.updV vid (fun r => { r with incoming := some e })
        ({ st with w := w }, vid)
  let st := stv.1
  let vid := stv.2
  let (w, edgeItemId) := st.w.allocSeg edgeItem
  let (w, eid) := createEdge w st.pid st.currentX st.currentY edgeItemId pathSid none
  let w := w.updE eid (fun r => { r with start := some vid })
  let w := w.updV vid (fun r => { r with smooth := st.smooth, outgoing := some eid })
  { st with w := w, edge := some eid, smooth := false, currentX := x, currentY := y }

/-- Acceptance of an (absolute) lineto item. -/
def acceptL (st : NState) (x y : JNum) : NState :=
  edgeAccept st x y (mkLineto x y) (mkLineto x y) PrevT.pOther

/-- The closepath body after the lineto-insertion test: drop a duplicate
closepath (preceded by another close or a moveto), otherwise link the open
edge back to the subpath's initial vertex and seal the loop.  `none` models
the `TypeError` on `initialVertex.incoming` when no initial vertex exists
(unreachable from the constructor's reachable states). -/
def handleZcore (st : NState) : Option NState :=
  match st.prevType with
  | PrevT.pZ | PrevT.pM => some st
  | _ =>
    let closed : Option NState :=
      match st.edge with
      | some e =>
          match st.initialVertex with
          | some iv =>
              let w := st.w.updE e (fun r => { r with endV := some iv })
              let w := w.updV iv (fun r => { r with incoming := some e })
              some { st with w := w, edge := none, initialVertex := none }
          | none => none
      | none => some st
    match closed with
    | none => none
    | some st =>
      let st := finishItem st PrevT.pZ
      let (st, _) := acceptSeg st mkClose
      some { st with currentX := st.initialX, currentY := st.initialY }

/-- Full closepath processing: when the current point differs from the
subpath's initial point, insert a lineto back to it first (the source
re-tests; the re-test can only still differ when a coordinate is `NaN`, in
which case the source loops forever — modelled as `none`). -/
def handleZfull (st : NState) : Option NState :=
  if JNum.sne st.initialX st.currentX || JNum.sne st.initialY st.currentY then
    let st := acceptL st st.initialX st.initialY
    if JNum.sne st.initialX st.currentX || JNum.sne st.initialY st.currentY then none
    else handleZcore st
  else handleZcore st

/-- The moveto body after its `prevType` switch: the dead-code end-cap for
an open edge, then record the accepted moveto as the subpath's `initial`
item and point. -/
def handleMbody (st : NState) (x y : JNum) (t : PrevT) : NState :=
  let st :=
    match st.edge with
    | some e =>
        let (w, vid) := createVertex st.w st.pid st.currentX st.currentY none none
        let w := w.updE e (fun r => { r with endV := some vid })
        let w := w.updV vid (fun r => { r with incoming := some e })
        { st with w := w, edge := none }
    | none => st
  let st := finishItem st t
  let (st, sid) := acceptSeg st (mkMoveto x y)
  { st with initialSeg := some sid, initialX := x, initialY := y,
            currentX := x, currentY := y }

/-- The moveto `prevType` switch: collapse consecutive absolute movetos,
pass after a close or at the start, and otherwise close the still-open
subpath by inserting (and fully processing) a closepath first. -/
def handleMpre (st : NState) : Option NState :=
  match st.prevType with
  | PrevT.pM => some (popLastSeg st)
  | PrevT.pnull => some st
  | PrevT.pZ => some st
  | _ => handleZfull st

/-- Full moveto processing. -/
def handleMfull (st : NState) (x y : JNum) (t : PrevT) : Option NState :=
  (handleMpre st).map (fun st' => handleMbody st' x y t)

/-- The raw descriptor commands consumed by the constructor, per the
descriptor grammar: single-letter kind (absolute/relative) with its
fixed-arity numeric arguments, plus `U` for an unrecognized command. -/
inductive InSeg where
  | M (abs : Bool) (x y : ℚ)
  | L (abs : Bool) (x y : ℚ)
  | H (abs : Bool) (x : ℚ)
  | V (abs : Bool) (y : ℚ)
  | C (abs : Bool) (x1 y1 x2 y2 x y : ℚ)
  | S (abs : Bool) (x2 y2 x y : ℚ)
  | Q (abs : Bool) (x1 y1 x y : ℚ)
  | T (abs : Bool) (x y : ℚ)
  | A (abs : Bool) (r1 r2 angle : ℚ) (laf sf : Bool) (x y : ℚ)
  | Z
  | U
deriving DecidableEq, Repr

/-- Whether the item's `pathSegTypeAsLetter` is exactly `"M"`: the guard
that suppresses the synthesized leading moveto. -/
def isAbsMoveto : InSeg → Bool
  | InSeg.M true _ _ => true
  | _ => false

/-- Absolutization of one coordinate: a relative command's coordinate is
offset by the current point (`x += currentX`). -/
def rel (abs : Bool) (arg : ℚ) (cur : JNum) : JNum :=
  if abs then JNum.num arg else JNum.add (JNum.num arg) cur

/-- The degree-elevation combination `p + (q - p) * 2 / 3` used to rewrite
quadratic curvetos as cubics. -/
def elev (p q : JNum) : JNum :=
  JNum.add p (JNum.div (JNum.mul (JNum.sub q p) (JNum.num 2)) (JNum.num 3))

/-- The `switch (type)` dispatch of the `Test` loop (after the synthesized
leading-moveto guard), one case per command kind. -/
def dispatchCore (st : NState) : InSeg → Option NState
  | InSeg.M abs x y =>
      handleMfull st (rel abs x st.currentX) (rel abs y st.currentY)
        (if abs then PrevT.pM else PrevT.pOther)
  | InSeg.L abs x y =>
      some (acceptL st (rel abs x st.currentX) (rel abs y st.currentY))
  | InSeg.H abs x =>
      -- `var y = item.y` on a horizontal segment reads an absent property:
      -- the replacement lineto is built with y = undefined
      some (acceptL st (rel abs x st.currentX) JNum.undef)
  | InSeg.V abs y =>
      some (acceptL st JNum.undef (rel abs y st.currentY))
  | InSeg.C abs x1 y1 x2 y2 x y =>
      let x' := rel abs x st.currentX
      let y' := rel abs y st.currentY
      let x1' := rel abs x1 st.currentX
      let y1' := rel abs y1 st.currentY
      let x2' := rel abs x2 st.currentX
      let y2' := rel abs y2 st.currentY
      some (edgeAccept st x' y' (mkCubic x' y' x1' y1' x2' y2')
        (mkCubic x' y' x1' y1' x2' y2') PrevT.pC)
  | InSeg.S abs x2 y2 x y =>
      let x' := rel abs x st.currentX
      let y' := rel abs y st.currentY
      let x2' := rel abs x2 st.currentX
      let y2' := rel abs y2 st.currentY
      let refl : JNum × JNum × Bool :=
        if st.prevType = PrevT.pC then
          (JNum.sub (JNum.mul st.currentX (JNum.num 2)) st.prevX,
           JNum.sub (JNum.mul st.currentY (JNum.num 2)) st.prevY, true)
        else (st.currentX, st.currentY, st.smooth)
      let x1 := refl.1
      let y1 := refl.2.1
      let st := { st with smooth := refl.2.2, prevAssigned := true,
                          prevType := PrevT.pC, prevX := x2', prevY := y2' }
      some (edgeAccept st x' y' (mkCubic x' y' x1 y1 x2' y2')
        (mkCubic x' y' x1 y1 x2' y2') PrevT.pC)
  | InSeg.Q abs x1 y1 x y =>
      let x' := rel abs x st.currentX
      let y' := rel abs y st.currentY
      let x1' := rel abs x1 st.currentX
      let y1' := rel abs y1 st.currentY
      let st' := { st with prevAssigned := true, prevType := PrevT.pQ,
                           prevX := x1', prevY := y1' }
      let x2'' := elev x' x1'
      let y2'' := elev y' y1'
      let x1'' := elev st.currentX x1'
      let y1'' := elev st.currentY y1'
      some (edgeAccept st' x' y' (mkCubic x' y' x1'' y1'' x2'' y2'')
        (mkCubic x' y' x1'' y1'' x2'' y2'') PrevT.pC)
  | InSeg.T abs x y =>
      let x' := rel abs x st.currentX
      let y' := rel abs y st.currentY
      let refl : JNum × JNum × Bool :=
        if st.prevType = PrevT.pQ then
          (JNum.sub (JNum.mul st.currentX (JNum.num 2)) st.prevX,
           JNum.sub (JNum.mul st.currentY (JNum.num 2)) st.prevY, true)
        else (st.currentX, st.currentY, st.smooth)
      let x1 := refl.1
      let y1 := refl.2.1
      let st' := { st with smooth := refl.2.2, prevAssigned := true,
                           prevType := PrevT.pQ, prevX := x1, prevY := y1 }
      let x2'' := elev x' x1
      let y2'' := elev y' y1
      let x1'' := elev st.currentX x1
      let y1'' := elev st.currentY y1
      some (edgeAccept st' x' y' (mkCubic x' y' x1'' y1'' x2'' y2'')
        (mkCubic x' y' x1'' y1'' x2'' y2'') PrevT.pC)
  | InSeg.A abs r1 r2 angle laf sf x y =>
      let x' := rel abs x st.currentX
      let y' := rel abs y st.currentY
      let d := mkArc x' y' (JNum.num r1) (JNum.num r2) (JNum.num angle) laf sf
      some (edgeAccept st x' y' d d PrevT.pOther)
  | InSeg.Z => handleZfull st
  | InSeg.U => some st

/-- One full `Test` iteration for one input item: the synthesized leading
moveto when a drawing command opens the list, then the kind dispatch. -/
def dispatch (st : NState) (item : InSeg) : Option NState :=
  let pre : Option NState :=
    if st.initialSeg = none && st.initialVertex = none && !(isAbsMoveto item) then
      handleMfull st st.initialX st.initialY PrevT.pM
    else some st
  pre.bind (fun st' => dispatchCore st' item)

/-- The `Iteration` loop over all input items. -/
def runItems : NState → List InSeg → Option NState
  | st, [] => some st
  | st, i :: rest => (dispatch st i).bind (fun st' => runItems st' rest)

/-- The end-of-list clause (`++index === segments.numberOfItems`): a
still-open edge gets an appended (and fully processed) closepath; a
trailing lone moveto is removed. -/
def ctorFinish (st : NState) : Option NState :=
  match st.edge with
  | some _ => handleZfull st
  | none =>
      match st.initialSeg with
      | some _ => some (popLastSeg st)
      | none => some st

/-- Allocate a fresh (empty) `Path` object for an element. -/
def newPathObj (w : World) : World × PId :=
  let pid := w.nextP
  ({ w with pHeap := hupd w.pHeap pid {}, nextP := w.nextP + 1 }, pid)

/-- The `Path(element, root)` constructor run on a raw descriptor. -/
def pathCtor (w : World) (pid : PId) (items : List InSeg) : Option World :=
  ((runItems { w := w, pid := pid } items).bind ctorFinish).map (fun st => st.w)

/-! ## Traced length (host `getTotalLength`), `createPath`, `Root.insert` -/

/-- Models the host call `path.element.getTotalLength() > 0` on a
normalized segment list: a lineto or arc contributes positive length iff
its endpoints differ (SVG omits an arc whose endpoints coincide); a cubic
iff its four defining points do not all coincide; a closepath iff the
current point differs from the subpath's initial point.  Comparisons use
strict equality, so segments with `NaN` coordinates count as positive (a
`NaN` length is never `=== 0`). -/
def segsLenPos (heap : SegId → SegData) :
    List SegId → JNum → JNum → JNum → JNum → Bool
  | [], _, _, _, _ => false
  | s :: rest, cx, cy, ix, iy =>
    let d := heap s
    match d.kind with
    | SegKind.M => segsLenPos heap rest d.x d.y d.x d.y
    | SegKind.L =>
        (JNum.sne cx d.x || JNum.sne cy d.y) || segsLenPos heap rest d.x d.y ix iy
    | SegKind.C =>
        (JNum.sne cx d.x1 || JNum.sne cy d.y1 ||
         JNum.sne cx d.x2 || JNum.sne cy d.y2 ||
         JNum.sne cx d.x || JNum.sne cy d.y) || segsLenPos heap rest d.x d.y ix iy
    | SegKind.A =>
        (JNum.sne cx d.x || JNum.sne cy d.y) || segsLenPos heap rest d.x d.y ix iy
    | SegKind.Z =>
        (JNum.sne cx ix || JNum.sne cy iy) || segsLenPos heap rest ix iy ix iy

/-- `path.element.getTotalLength() > 0` for a whole path element. -/
def pathLenPos (w : World) (pid : PId) : Bool :=
  segsLenPos w.segHeap (w.pHeap pid).segList
    (JNum.num 0) (JNum.num 0) (JNum.num 0) (JNum.num 0)

/-- Models `edge.element.getTotalLength() === 0` for a two-segment edge
element `[moveto from, drawing segment to]`. -/
def edgeLenZero (w : World) (e : EId) : Bool :=
  let r := w.eHeap e
  let f := w.segHeap r.elemFrom
  let t := w.segHeap r.elemTo
  match t.kind with
  | SegKind.L => JNum.seq f.x t.x && JNum.seq f.y t.y
  | SegKind.C => JNum.seq f.x t.x1 && JNum.seq f.y t.y1 &&
                 JNum.seq f.x t.x2 && JNum.seq f.y t.y2 &&
                 JNum.seq f.x t.x && JNum.seq f.y t.y
  | SegKind.A => JNum.seq f.x t.x && JNum.seq f.y t.y
  | _ => true

/-- `createPath(element, root, index)`: runs the `Path` constructor; a path
with at most one vertex and positive traced length is released and the
caller receives `null`; otherwise the path is spliced into `root.paths` at
`index` when `paths[index]` holds a path (`reference` truthy), else
appended.  The outer `Option` propagates constructor divergence. -/
def createPath (w : World) (items : List InSeg) (index : Option ℤ) :
    Option (Option PId × World) :=
  let (w', pid) := newPathObj w
  match pathCtor w' pid items with
  | none => none
  | some w1 =>
    if (w1.pHeap pid).vertices.length ≤ 1 && pathLenPos w1 pid then
      some (none, releasePath w1 pid)
    else
      let reference : Bool := match index with
        | some i => decide (0 ≤ i) && decide (i < w1.paths.length)
        | none => false
      let w2 := { w1 with paths :=
        if reference then jsSpliceIns w1.paths (index.getD 0) pid
        else w1.paths ++ [pid] }
      some (some pid, w2)

/-- `Root.insert(options, index)`: clamps `index` to `[0, paths.length]`
but then calls `createPath(element, this)` without passing the index on,
so the new path is always appended; returns `null` (with the failed path
released) when construction fails. -/
def rootInsert (w : World) (items : List InSeg) (selected : Bool)
    (index : Option ℤ) : Option (Option PId × World) :=
  let _clamped : ℤ := match index with
    | none => (w.paths.length : ℤ)
    | some i => if i < 0 then 0 else
        if i > (w.paths.length : ℤ) then (w.paths.length : ℤ) else i
  match createPath w items none with
  | none => none
  | some (none, w1) => some (none, w1)
  | some (some pid, w1) =>
    let w2 := if selected then w1.updP pid (fun p => { p with selected := true }) else w1
    some (some pid, change w2 ChangeTy.Insert (some pid))

/-- `Root.prototype.get(index)` resolves to `paths[index]`. -/
def rootGet (w : World) (index : ℕ) : Option PId := w.paths[index]?

/-! ## Topology editor: `splitEdge` and `deleteVertex` -/

/-- `splitEdge(edge, x, y)`.  Returns `(none, w)` unchanged when the
edge's segment is not found in its path element's segment list; otherwise
moves the original edge's endpoint to the split point (the original edge
keeps its kind and curve parameters), inserts a new lineto path segment to
the original far endpoint right after it, creates the new vertex and the
new trailing lineto edge, and relinks the chain.  The outer `Option`
models the `TypeError` when `edge.end` is `null`. -/
def splitEdge (w : World) (e : EId) (x y : JNum) : Option (Option VId × World) :=
  let pid := (w.eHeap e).path
  let segs := (w.pHeap pid).segList
  match segmentIndex segs (w.eHeap e).segment with
  | none => some (none, w)
  | some index =>
    match (w.eHeap e).segment with
    | none => none
    | some sid =>
      let segD := w.segHeap sid
      -- var item = createSVGPathSegLinetoAbs(segment.x, segment.y) (old endpoint)
      let (w, itemId) := w.allocSeg (mkLineto segD.x segD.y)
      let (w, edgeItemId) := w.allocSeg (mkLineto segD.x segD.y)
      let toId := (w.eHeap e).elemTo
      -- to.x = segment.x = x; to.y = segment.y = y;
      let w := w.updSeg sid (fun d => { d with x := x, y := y })
      let w := w.updSeg toId (fun d => { d with x := x, y := y })
      -- item = segments.insertItemBefore(item, index + 1)
      let w := w.updP pid (fun p =>
        { p with segList := p.segList.insertIdx (index + 1) itemId })
      match (w.eHeap e).endV with
      | none => none
      | some oldEnd =>
        let vIdx : Option ℤ := some ((w.pHeap pid).vertices.indexOf? oldEnd
          |>.elim (-1) (fun i => (i : ℤ)))
        let (w, vid) := createVertex w pid x y none vIdx
        let eIdx : Option ℤ := some ((w.pHeap pid).edges.indexOf? e
          |>.elim (-1) (fun i => (i : ℤ)))
        let wsplit := createEdge w pid x y edgeItemId itemId eIdx
        let w := wsplit.1
        let split := wsplit.2
        -- split.end = edge.end; split.end.incoming = split;
        let w := w.updE split (fun r => { r with endV := some oldEnd })
        let w := w.updV oldEnd (fun r => { r with incoming := some split })
        -- split.start = vertex; vertex.outgoing = split; vertex.incoming = edge;
        let w := w.updE split (fun r => { r with start := some vid })
        let w := w.updV vid (fun r => { r with outgoing := some split, incoming := some e })
        -- edge.end = vertex;
        let w := w.updE e (fun r => { r with endV := some vid })
        let w := change w ChangeTy.Transform (some pid)
        some (some vid, w)

/-- The `if (last)` block of `deleteVertex`: remove the remaining
self-loop subpath (its closepath at `index + 1`, its drawing segment at
`index`, its moveto at `index - 1`), drop and release the edge and vertex,
and when the path is emptied of vertices remove it from `root.paths` and
release it.  Returns the world and the `removed` flag.  (The source's
`index` is at least 1 in every reachable state — a subpath starts with its
moveto — so natural subtraction is exact.) -/
def deleteVertexLast (w : World) (pid : PId) (v : VId) (incoming : EId)
    (index : ℕ) : World × Bool :=
  let w := w.updP pid (fun p =>
    { p with segList := (((p.segList.eraseIdx (index + 1)).eraseIdx index).eraseIdx (index - 1)) })
  let w := w.updP pid (fun p => { p with vertices := jsRemoveElem p.vertices v })
  let w := w.updP pid (fun p => { p with edges := jsRemoveElem p.edges incoming })
  let w := releaseEdge w incoming
  let w := releaseVertex w v
  if (w.pHeap pid).vertices.length = 0 then
    let w := { w with paths := jsRemoveElem w.paths pid }
    let w := change w ChangeTy.Remove (some pid)
    (releasePath w pid, true)
  else (w, false)

/-- `deleteVertex(vertex)`.  No-op when the outgoing edge's segment is not
found in the path element's segment list.  Otherwise, unless incoming and
outgoing are the same edge (a single-edge self-loop), the outgoing edge is
merged into the incoming edge: the incoming edge's path segment and element
keep their own kind and curve parameters but take the outgoing edge's far
endpoint coordinates; the links are rerouted, the outgoing edge's path
segment, array entries, edge and vertex are removed and released, and the
moveto anchor (if the vertex carried one) moves to the next vertex.  When
the (possibly merged) remainder is a single zero-length self-loop edge, it
is deleted as well, and a path emptied of vertices is removed from
`root.paths` and released.  `none` models the `TypeError`s on null
references (`outgoing.segment`, `incoming.segment`, `next.incoming`). -/
def deleteVertex (w : World) (v : VId) : Option World :=
  let pid := (w.vHeap v).path
  let incoming? := (w.vHeap v).incoming
  match (w.vHeap v).outgoing with
  | none => none
  | some outgoing =>
    match segmentIndex (w.pHeap pid).segList (w.eHeap outgoing).segment with
    | none => some w
    | some index =>
      let merged? : Option (World × VId × EId × ℕ × Bool) :=
        if incoming? = some outgoing then
          some (w, v, outgoing, index, true)
        else
          match incoming? with
          | none => none
          | some incoming =>
            match (w.eHeap outgoing).endV, (w.eHeap outgoing).segment,
                  (w.eHeap incoming).segment with
            | some next, some osid, some isid =>
              let itoId := (w.eHeap incoming).elemTo
              let w := w.updSeg isid (fun d =>
                { d with x := (w.segHeap osid).x, y := (w.segHeap osid).y })
              let w := w.updSeg itoId (fun d =>
                { d with x := (w.segHeap osid).x, y := (w.segHeap osid).y })
              let w := w.updE incoming (fun r => { r with endV := some next })
              let w := w.updV next (fun r => { r with incoming := some incoming })
              let w := w.updP pid (fun p => { p with segList := p.segList.eraseIdx index })
              let w := w.updP pid (fun p => { p with vertices := jsRemoveElem p.vertices v })
              let w := w.updP pid (fun p => { p with edges := jsRemoveElem p.edges outgoing })
              let wi : World × ℕ :=
                match (w.vHeap v).segment with
                | some vseg =>
                  let w := w.updV next (fun r => { r with segment := some vseg })
                  let w := w.updSeg vseg (fun d =>
                    { d with x := (w.segHeap osid).x, y := (w.segHeap osid).y })
                  (w, index)
                | none => (w, index - 1)
              let w := releaseEdge wi.1 outgoing
              let w := releaseVertex w v
              let last := ((w.vHeap next).outgoing = some incoming) && edgeLenZero w incoming
              some (w, next, incoming, wi.2, last)
            | _, _, _ => none
      match merged? with
      | none => none
      | some (w, vtx, incoming, idx, last) =>
        let wr : World × Bool :=
          if last then deleteVertexLast w pid vtx incoming idx else (w, false)
        if wr.2 then some wr.1
        else some (change wr.1 ChangeTy.Transform (some pid))

/-! ## Transform engine (`Transform`, `Transform.prototype.transform`) -/

/-- One entry of the single-vertex snapshot (`this._vertex`): the vertex,
its incident edges, its circle element's center, and the snapshot fields
`x1`/`y1` (read as `incoming.x1`/`incoming.y1`) and `x2`/`y2` (read as
`outgoing.x2`/`outgoing.y2`).  `Edge` objects have no such properties —
only `path`, `segment`, `start` and `end` — so all four reads yield
`undefined`. -/
structure VSnapItem where
  vertex : VId
  incoming : EId
  outgoing : EId
  px : JNum
  py : JNum
  x1 : JNum
  y1 : JNum
  x2 : JNum
  y2 : JNum
deriving Repr

/-- One entry of the whole-path edge snapshot (`this._edges`): coordinates
read from the edge element's two segments (fields absent from the
segment's kind read as `undefined`). -/
structure ESnapItem where
  edge : EId
  x0 : JNum
  y0 : JNum
  x : JNum
  y : JNum
  x1 : JNum
  y1 : JNum
  x2 : JNum
  y2 : JNum
  r1 : JNum
  r2 : JNum
  angle : JNum
deriving Repr

/-- One entry of the whole-path vertex snapshot (`this._vertices`). -/
structure VBase where
  vertex : VId
  x : JNum
  y : JNum
deriving Repr

/-- A `Transform` snapshot's captured baseline: whole-path mode
(`_vertices`/`_edges`) or single-vertex mode (`_vertex`). -/
inductive SnapData where
  | pathMode (vs : List VBase) (es : List ESnapItem)
  | vertexMode (items : List VSnapItem)

/-- A `Transform` instance: the path, the captured baseline, and the
bounding-box center (`bounds` comes from the host's `getBBox`; the center
is supplied as an interface input). -/
structure Snap where
  path : PId
  data : SnapData
  cx : ℚ
  cy : ℚ

/-- Build one `_vertex` snapshot entry.  `none` models the null-reference
fault when the vertex has no incoming or outgoing edge. -/
def mkVSnapItem (w : World) (v : VId) : Option VSnapItem :=
  match (w.vHeap v).incoming, (w.vHeap v).outgoing with
  | some i, some o =>
      some { vertex := v, incoming := i, outgoing := o,
             px := (w.vHeap v).vx, py := (w.vHeap v).vy,
             x1 := JNum.undef, y1 := JNum.undef,
             x2 := JNum.undef, y2 := JNum.undef }
  | _, _ => none

/-- `new Transform(path)`: whole-path snapshot. -/
def mkSnapPath (w : World) (pid : PId) (bbCx bbCy : ℚ) : Snap :=
  { path := pid,
    data := SnapData.pathMode
      ((w.pHeap pid).vertices.map (fun v =>
        { vertex := v, x := (w.vHeap v).vx, y := (w.vHeap v).vy }))
      ((w.pHeap pid).edges.map (fun e =>
        let f := w.segHeap (w.eHeap e).elemFrom
        let t := w.segHeap (w.eHeap e).elemTo
        { edge := e, x0 := f.x, y0 := f.y, x := t.x, y := t.y,
          x1 := t.x1, y1 := t.y1, x2 := t.x2, y2 := t.y2,
          r1 := t.r1, r2 := t.r2, angle := t.angle })),
    cx := bbCx, cy := bbCy }

/-- `new Transform(vertex)`: single-vertex snapshot. -/
def mkSnapVertex (w : World) (v : VId) (bbCx bbCy : ℚ) : Option Snap :=
  (mkVSnapItem w v).map (fun it =>
    { path := (w.vHeap v).path, data := SnapData.vertexMode [it],
      cx := bbCx, cy := bbCy })

/-- `new Transform(edge)`: single-vertex-mode snapshot of the edge's two
endpoint vertices. -/
def mkSnapEdge (w : World) (e : EId) (bbCx bbCy : ℚ) : Option Snap :=
  match (w.eHeap e).start, (w.eHeap e).endV with
  | some s, some t =>
    match mkVSnapItem w s, mkVSnapItem w t with
    | some a, some b =>
        some { path := (w.eHeap e).path, data := SnapData.vertexMode [a, b],
               cx := bbCx, cy := bbCy }
    | _, _ => none
  | _, _ => none

/-- Raw `options` of `Transform.prototype.transform`. -/
structure TOpts where
  cx : Option ℚ := none
  cy : Option ℚ := none
  dx : Option ℚ := none
  dy : Option ℚ := none
  s : Option ℚ := none
  sy : Option ℚ := none
  angle : Option ℚ := none
  sin : Option ℚ := none
  cos : Option ℚ := none

/-- The options after defaulting: `cx`/`cy` default to the snapshot
center, `dx = options.dx || 0`, `s === undefined ? 1 : s`, `sy` defaulting
to `s`, and the completed angle/sin/cos triple. -/
structure ROpts where
  cx : ℚ
  cy : ℚ
  dx : ℚ := 0
  dy : ℚ := 0
  s : ℚ := 1
  sy : ℚ := 1
  angle : ℚ := 0
  sin : ℚ := 0
  cos : ℚ := 1

/-- Option defaulting.  `none` models the branches that call the host's
transcendental functions, which have no exact rational model: `angle`
given without both `sin` and `cos` (`Math.sin`/`Math.cos`), or both trig
values given without `angle` (`Math.atan2`).  When all three are absent
the triple defaults to `angle = 0, sin = 0, cos = 1`. -/
def resolveOpts (snap : Snap) (o : TOpts) : Option ROpts :=
  let cx := o.cx.getD snap.cx
  let cy := o.cy.getD snap.cy
  let dx := o.dx.getD 0
  let dy := o.dy.getD 0
  let s := o.s.getD 1
  let sy := o.sy.getD s
  match o.angle, o.sin, o.cos with
  | none, some _, some _ => none
  | none, _, _ =>
      some { cx := cx, cy := cy, dx := dx, dy := dy, s := s, sy := sy,
             angle := 0, sin := 0, cos := 1 }
  | some a, some si, some co =>
      some { cx := cx, cy := cy, dx := dx, dy := dy, s := s, sy := sy,
             angle := a, sin := si, cos := co }
  | some _, _, _ => none

/-- The single-vertex branch of `transform` for one `_vertex` item: the
vertex and the near end of each incident edge translate by `(dx, dy)`;
when an incident edge's drawing segment is a cubic, its near control point
is set from the snapshot's `x1`/`y1` (resp. `x2`/`y2`) fields plus the
offset — those fields are `undefined`, so the write stores `NaN`.  Only
`dx`/`dy` of the options are consulted. -/
def transformVertexItem (r : ROpts) (w : World) (it : VSnapItem) : Option World :=
  let x := JNum.add it.px (JNum.num r.dx)
  let y := JNum.add it.py (JNum.num r.dy)
  let w := w.updV it.vertex (fun vr => { vr with vx := x, vy := y })
  let w := match (w.vHeap it.vertex).segment with
    | some sid => w.updSeg sid (fun d => { d with x := x, y := y })
    | none => w
  let og := w.eHeap it.outgoing
  let w := w.updSeg og.elemFrom (fun d => { d with x := x, y := y })
  let afterOut : Option World :=
    if (w.segHeap og.elemTo).kind = SegKind.C then
      match og.segment with
      | some osid =>
          let v1 := JNum.add it.x1 (JNum.num r.dx)
          let v2 := JNum.add it.y1 (JNum.num r.dy)
          let w := w.updSeg og.elemTo (fun d => { d with x1 := v1, y1 := v2 })
          some (w.updSeg osid (fun d => { d with x1 := v1, y1 := v2 }))
      | none => none
    else some w
  afterOut.bind (fun w =>
    let ig := w.eHeap it.incoming
    match ig.segment with
    | none => none
    | some isid =>
      let w := w.updSeg ig.elemTo (fun d => { d with x := x, y := y })
      let w := w.updSeg isid (fun d => { d with x := x, y := y })
      if (w.segHeap ig.elemTo).kind = SegKind.C then
        let v1 := JNum.add it.x2 (JNum.num r.dx)
        let v2 := JNum.add it.y2 (JNum.num r.dy)
        let w := w.updSeg ig.elemTo (fun d => { d with x2 := v1, y2 := v2 })
        some (w.updSeg isid (fun d => { d with x2 := v1, y2 := v2 }))
      else some w)

/-- `self._vertex.forEach(...)`. -/
def transformVertexItems (r : ROpts) : World → List VSnapItem → Option World
  | w, [] => some w
  | w, it :: rest =>
      (transformVertexItem r w it).bind (fun w' => transformVertexItems r w' rest)

/-- `transformPoint(p)` of the whole-path branch, with
`a = cos*s`, `b = -sin*s`, `c = sin*sy`, `d = cos*sy`:
`(p.x - cx) * a + (p.y - cy) * b + cx + dx` and
`(p.x - cx) * c + (p.y - cy) * d + cy + dy`. -/
def transformPoint (r : ROpts) (px py : JNum) : JNum × JNum :=
  let a := r.cos * r.s
  let b := -r.sin * r.s
  let c := r.sin * r.sy
  let d := r.cos * r.sy
  (JNum.add (JNum.add (JNum.add
      (JNum.mul (JNum.sub px (JNum.num r.cx)) (JNum.num a))
      (JNum.mul (JNum.sub py (JNum.num r.cy)) (JNum.num b)))
      (JNum.num r.cx)) (JNum.num r.dx),
   JNum.add (JNum.add (JNum.add
      (JNum.mul (JNum.sub px (JNum.num r.cx)) (JNum.num c))
      (JNum.mul (JNum.sub py (JNum.num r.cy)) (JNum.num d)))
      (JNum.num r.cy)) (JNum.num r.dy))

/-- The inner `transform(segment, data)` of the whole-path branch: write
the transformed endpoint; when the segment is a cubic also its transformed
control points; when it is an arc, scale the radii by `s` and increment
the rotation angle by `angle` modulo 360. -/
def transformSegWrite (r : ROpts) (dat : ESnapItem) (w : World) (sid : SegId) : World :=
  let p := transformPoint r dat.x dat.y
  let w := w.updSeg sid (fun d => { d with x := p.1, y := p.2 })
  match (w.segHeap sid).kind with
  | SegKind.C =>
      let p1 := transformPoint r dat.x1 dat.y1
      let p2 := transformPoint r dat.x2 dat.y2
      w.updSeg sid (fun d =>
        { d with x1 := p1.1, y1 := p1.2, x2 := p2.1, y2 := p2.2 })
  | SegKind.A =>
      w.updSeg sid (fun d =>
        { d with r1 := JNum.mul dat.r1 (JNum.num r.s),
                 r2 := JNum.mul dat.r2 (JNum.num r.s),
                 angle := JNum.jmod (JNum.add dat.angle (JNum.num r.angle)) (JNum.num 360) })
  | _ => w

/-- `path.vertices.forEach(...)` of the whole-path branch, pairing the
live vertex list with the snapshot by index (`none` when the live list
outruns the snapshot — the source faults on the undefined entry). -/
def transformPathVerts (r : ROpts) : World → List VId → List VBase → Option World
  | w, [], _ => some w
  | w, v :: cur, b :: vs =>
      let p := transformPoint r b.x b.y
      let w := w.updV v (fun vr => { vr with vx := p.1, vy := p.2 })
      let w := match (w.vHeap v).segment with
        | some sid => w.updSeg sid (fun d => { d with x := p.1, y := p.2 })
        | none => w
      transformPathVerts r w cur vs
  | _, _ :: _, [] => none

/-- `path.edges.forEach(...)` of the whole-path branch: transform the edge
element's moveto, its drawing segment, and the path's own segment. -/
def transformPathEdges (r : ROpts) : World → List EId → List ESnapItem → Option World
  | w, [], _ => some w
  | w, e :: cur, dat :: es =>
      let er := w.eHeap e
      let p := transformPoint r dat.x0 dat.y0
      let w := w.updSeg er.elemFrom (fun d => { d with x := p.1, y := p.2 })
      let w := transformSegWrite r dat w er.elemTo
      (match er.segment with
       | none => none
       | some sid => transformPathEdges r (transformSegWrite r dat w sid) cur es)
  | _, _ :: _, [] => none

/-- `Transform.prototype.transform` with resolved numeric options. -/
def applyTransform (w : World) (snap : Snap) (r : ROpts) : Option World :=
  match snap.data with
  | SnapData.vertexMode items => transformVertexItems r w items
  | SnapData.pathMode vs es =>
      (transformPathVerts r w (w.pHeap snap.path).vertices vs).bind (fun w1 =>
        transformPathEdges r w1 (w1.pHeap snap.path).edges es)

/-- `transform(options)` including option defaulting. -/
def transformWithOpts (w : World) (snap : Snap) (o : TOpts) : Option World :=
  (resolveOpts snap o).bind (applyTransform w snap)

/-! ## Constructor invariants (for the closure/cardinality property) -/

/-- Graph invariant of the `Path` constructor loop: vertex and edge counts
agree, owned vertex ids are below the allocator, every owned vertex has an
outgoing edge, every owned vertex except the current subpath-initial one
has an incoming edge, and the open-edge and initial-vertex registers are
empty together. -/
structure GraphInv (st : NState) : Prop where
  counts : (st.w.pHeap st.pid).vertices.length = (st.w.pHeap st.pid).edges.length
  freshV : ∀ v ∈ (st.w.pHeap st.pid).vertices, v < st.w.nextV
  outg : ∀ v ∈ (st.w.pHeap st.pid).vertices, ((st.w.vHeap v).outgoing).isSome = true
  inc : ∀ v ∈ (st.w.pHeap st.pid).vertices,
    st.initialVertex = some v ∨ ((st.w.vHeap v).incoming).isSome = true
  edgeIv : st.edge = none ↔ st.initialVertex = none

/-- Boundary invariant holding between items of the constructor loop. -/
structure CtorInv (st : NState) extends GraphInv st : Prop where
  pa : st.prevAssigned = false
  prevE : st.prevType = PrevT.pM ∨ st.prevType = PrevT.pnull ∨ st.prevType = PrevT.pZ →
    st.edge = none

/-! ## Concrete example descriptors and worlds used in the theorems -/

/-- The spec's rectangle example `M 0 0 L 10 0 L 10 10 L 0 10 Z`. -/
def rectDesc : List InSeg :=
  [InSeg.M true 0 0, InSeg.L true 10 0, InSeg.L true 10 10, InSeg.L true 0 10, InSeg.Z]

/-- The world after creating the rectangle path (path id 0). -/
def rectW : World := ((createPath {} rectDesc none).getD (none, {})).2

/-- A closed path with one cubic edge: `M 0 0 C 10 20 30 40 50 60 Z` (path
id 0; vertex 0 at (0,0), vertex 1 at (50,60); edge 0 the cubic `0 → 1` with
path segment 1, edge 1 the closing line `1 → 0`). -/
def cubicDesc : List InSeg :=
  [InSeg.M true 0 0, InSeg.C true 10 20 30 40 50 60, InSeg.Z]

/-- The world after creating the cubic path. -/
def cubicW : World := ((createPath {} cubicDesc none).getD (none, {})).2

/-- `M 0 0 L 10 0 C 1 2 3 4 10 10 Z`: a triangle whose middle vertex 1 has
a straight incoming edge 0 and a cubic outgoing edge 1 with control points
(1,2) and (3,4). -/
def triDesc : List InSeg :=
  [InSeg.M true 0 0, InSeg.L true 10 0, InSeg.C true 1 2 3 4 10 10, InSeg.Z]

/-- The world after creating the triangle path. -/
def triW : World := ((createPath {} triDesc none).getD (none, {})).2

/-- An arc path whose arc rotation angle is 400 degrees:
`M 0 0 A 3 4 400 1 0 5 5 Z`. -/
def arcDesc : List InSeg :=
  [InSeg.M true 0 0, InSeg.A true 3 4 400 true false 5 5, InSeg.Z]

/-- The world after creating the arc path. -/
def arcW : World := ((createPath {} arcDesc none).getD (none, {})).2

/-- `M 0 0 C 0 0 1 1 2 2 S 5 5 6 6 Z`: a shorthand cubic `S` whose
immediately preceding command is a plain cubic `C` with trailing control
point (1,1); current point at the `S` is (2,2). -/
def smoothDesc : List InSeg :=
  [InSeg.M true 0 0, InSeg.C true 0 0 1 1 2 2, InSeg.S true 5 5 6 6, InSeg.Z]

/-- The world after creating the smooth-continuation path. -/
def smoothW : World := ((createPath {} smoothDesc none).getD (none, {})).2

/-- A one-vertex self-loop of positive traced length:
`M 0 0 C 1 1 2 2 0 0`. -/
def degenDesc : List InSeg := [InSeg.M true 0 0, InSeg.C true 1 1 2 2 0 0]

/-- Parametric two-vertex closed loop `M p0x p0y L p1x p1y Z`. -/
def loopDesc (p0x p0y p1x p1y : ℚ) : List InSeg :=
  [InSeg.M true p0x p0y, InSeg.L true p1x p1y, InSeg.Z]

/-- The world after `createPath` on the descriptor `M 0 0` alone (zero
vertices, zero traced length). -/
def lonelyMovetoW : World :=
  ((createPath {} [InSeg.M true 0 0] none).getD (none, {})).2

/-- A root with one path (the rectangle). -/
def c6W0 : World := ((rootInsert {} rectDesc false none).getD (none, {})).2

/-- A root with two paths (ids 0 and 1). -/
def c6W1 : World := ((rootInsert c6W0 cubicDesc false none).getD (none, {})).2

/-- The root after `insert(triangle, 0)` on the two-path root. -/
def c6W2 : World := ((rootInsert c6W1 triDesc false (some 0)).getD (none, {})).2

/-- The cubic-path world after an identity single-vertex transform of
vertex 0 (snapshot taken, `transform({})` applied). -/
def c3VertexW : World :=
  (((mkSnapVertex cubicW 0 0 0).bind
    (fun s => transformWithOpts cubicW s {})).getD {})

/-- The arc-path world after an identity whole-path transform. -/
def c3PathW : World :=
  ((transformWithOpts arcW (mkSnapPath arcW 0 0 0) {}).getD {})

/-- The cubic-path world after a single-vertex transform of vertex 1 by
`{dx: 1}`. -/
def c4W : World :=
  (((mkSnapVertex cubicW 1 0 0).bind
    (fun s => transformWithOpts cubicW s { dx := some 1 })).getD {})

/-- The cubic-path world after `splitEdge(edge 0, (7, 8))`. -/
def c1SplitW : World :=
  ((splitEdge cubicW 0 (JNum.num 7) (JNum.num 8)).getD (none, {})).2

/-- The triangle world after `deleteVertex(vertex 1)`. -/
def c2DelW : World := ((deleteVertex triW 1).getD {})

/-- The world after creating the parametric two-vertex loop (path id 0). -/
def c9LoopW (a b c d : ℚ) : World :=
  ((createPath {} (loopDesc a b c d) none).getD (none, {})).2

/-- The parametric one-cubic closed path `M a b C q1 q2 q3 q4 c d Z`. -/
def c1CubicDesc (a b q1 q2 q3 q4 c d : ℚ) : List InSeg :=
  [InSeg.M true a b, InSeg.C true q1 q2 q3 q4 c d, InSeg.Z]

/-- The world after creating the parametric cubic path (path id 0; vertex 0
at `(a, b)`, vertex 1 at `(c, d)`; edge 0 the cubic, edge 1 the closing
line). -/
def c1CubicW (a b q1 q2 q3 q4 c d : ℚ) : World :=
  ((createPath {} (c1CubicDesc a b q1 q2 q3 q4 c d) none).getD (none, {})).2

/-- The parametric cubic world after `splitEdge(edge 0, (x, y))`. -/
def c1SplitResW (a b q1 q2 q3 q4 c d x y : ℚ) : World :=
  ((splitEdge (c1CubicW a b q1 q2 q3 q4 c d) 0 (JNum.num x) (JNum.num y)).getD (none, {})).2

/-- The parametric triangle `M a b L c d C q1 q2 q3 q4 e f Z`: its middle
vertex 1 has a straight incoming edge 0 and a cubic outgoing edge 1. -/
def c2TriDesc (a b c d q1 q2 q3 q4 e f : ℚ) : List InSeg :=
  [InSeg.M true a b, InSeg.L true c d, InSeg.C true q1 q2 q3 q4 e f, InSeg.Z]

/-- The world after creating the parametric triangle (path id 0). -/
def c2TriW (a b c d q1 q2 q3 q4 e f : ℚ) : World :=
  ((createPath {} (c2TriDesc a b c d q1 q2 q3 q4 e f) none).getD (none, {})).2

/-- The parametric triangle world after `deleteVertex(vertex 1)`. -/
def c2DelResW (a b c d q1 q2 q3 q4 e f : ℚ) : World :=
  (deleteVertex (c2TriW a b c d q1 q2 q3 q4 e f) 1).getD {}

/-! ## Helper lemmas -/

theorem jsSpliceIns_atLen {α : Type} (l : List α) (a : α) :
    jsSpliceIns l (jsOrLen none l.length) a = l ++ [a] := by
  simp only [jsSpliceIns, jsOrLen]
  rw [if_neg (by omega)]
  simp [List.insertIdx_length_self]

section WorldProj

variable (w : World) (d : SegData) (i j : ℕ)

@[simp] theorem updP_pHeap_same (f : PathR → PathR) :
    (w.updP i f).pHeap i = f (w.pHeap i) := by simp [World.updP]
@[simp] theorem updP_pHeap_ne (f : PathR → PathR) (h : j ≠ i) :
    (w.updP i f).pHeap j = w.pHeap j := by simp [World.updP, h]
@[simp] theorem updP_segHeap (f : PathR → PathR) : (w.updP i f).segHeap = w.segHeap := rfl
@[simp] theorem updP_vHeap (f : PathR → PathR) : (w.updP i f).vHeap = w.vHeap := rfl
@[simp] theorem updP_eHeap (f : PathR → PathR) : (w.updP i f).eHeap = w.eHeap := rfl
@[simp] theorem updP_nextSeg (f : PathR → PathR) : (w.updP i f).nextSeg = w.nextSeg := rfl
@[simp] theorem updP_nextV (f : PathR → PathR) : (w.updP i f).nextV = w.nextV := rfl
@[simp] theorem updP_nextE (f : PathR → PathR) : (w.updP i f).nextE = w.nextE := rfl
@[simp] theorem updP_nextP (f : PathR → PathR) : (w.updP i f).nextP = w.nextP := rfl
@[simp] theorem updP_paths (f : PathR → PathR) : (w.updP i f).paths = w.paths := rfl

@[simp] theorem updV_vHeap_same (f : VertexR → VertexR) :
    (w.updV i f).vHeap i = f (w.vHeap i) := by simp [World.updV]
@[simp] theorem updV_vHeap_ne (f : VertexR → VertexR) (h : j ≠ i) :
    (w.updV i f).vHeap j = w.vHeap j := by simp [World.updV, h]
@[simp] theorem updV_pHeap (f : VertexR → VertexR) : (w.updV i f).pHeap = w.pHeap := rfl
@[simp] theorem updV_segHeap (f : VertexR → VertexR) : (w.updV i f).segHeap = w.segHeap := rfl
@[simp] theorem updV_eHeap (f : VertexR → VertexR) : (w.updV i f).eHeap = w.eHeap := rfl
@[simp] theorem updV_nextSeg (f : VertexR → VertexR) : (w.updV i f).nextSeg = w.nextSeg := rfl
@[simp] theorem updV_nextV (f : VertexR → VertexR) : (w.updV i f).nextV = w.nextV := rfl
@[simp] theorem updV_nextE (f : VertexR → VertexR) : (w.updV i f).nextE = w.nextE := rfl
@[simp] theorem updV_paths (f : VertexR → VertexR) : (w.updV i f).paths = w.paths := rfl

@[simp] theorem updE_eHeap_same (f : EdgeR → EdgeR) :
    (w.updE i f).eHeap i = f (w.eHeap i) := by simp [World.updE]
@[simp] theorem updE_eHeap_ne (f : EdgeR → EdgeR) (h : j ≠ i) :
    (w.updE i f).eHeap j = w.eHeap j := by simp [World.updE, h]
@[simp] theorem updE_pHeap (f : EdgeR → EdgeR) : (w.updE i f).pHeap = w.pHeap := rfl
@[simp] theorem updE_segHeap (f : EdgeR → EdgeR) : (w.updE i f).segHeap = w.segHeap := rfl
@[simp] theorem updE_vHeap (f : EdgeR → EdgeR) : (w.updE i f).vHeap = w.vHeap := rfl
@[simp] theorem updE_nextSeg (f : EdgeR → EdgeR) : (w.updE i f).nextSeg = w.nextSeg := rfl
@[simp] theorem updE_nextV (f : EdgeR → EdgeR) : (w.updE i f).nextV = w.nextV := rfl
@[simp] theorem updE_nextE (f : EdgeR → EdgeR) : (w.updE i f).nextE = w.nextE := rfl
@[simp] theorem updE_paths (f : EdgeR → EdgeR) : (w.updE i f).paths = w.paths := rfl

@[simp] theorem updSeg_segHeap_same (f : SegData → SegData) :
    (w.updSeg i f).segHeap i = f (w.segHeap i) := by simp [World.updSeg]
@[simp] theorem updSeg_segHeap_ne (f : SegData → SegData) (h : j ≠ i) :
    (w.updSeg i f).segHeap j = w.segHeap j := by simp [World.updSeg, h]
@[simp] theorem updSeg_pHeap (f : SegData → SegData) : (w.updSeg i f).pHeap = w.pHeap := rfl
@[simp] theorem updSeg_vHeap (f : SegData → SegData) : (w.updSeg i f).vHeap = w.vHeap := rfl
@[simp] theorem updSeg_eHeap (f : SegData → SegData) : (w.updSeg i f).eHeap = w.eHeap := rfl
@[simp] theorem updSeg_nextSeg (f : SegData → SegData) : (w.updSeg i f).nextSeg = w.nextSeg := rfl
@[simp] theorem updSeg_nextV (f : SegData → SegData) : (w.updSeg i f).nextV = w.nextV := rfl
@[simp] theorem updSeg_nextE (f : SegData → SegData) : (w.updSeg i f).nextE = w.nextE := rfl
@[simp] theorem updSeg_paths (f : SegData → SegData) : (w.updSeg i f).paths = w.paths := rfl

@[simp] theorem allocSeg_snd : (w.allocSeg d).2 = w.nextSeg := rfl
@[simp] theorem allocSeg_nextSeg : (w.allocSeg d).1.nextSeg = w.nextSeg + 1 := rfl
@[simp] theorem allocSeg_segHeap_same : (w.allocSeg d).1.segHeap w.nextSeg = d := by
  simp [World.allocSeg]
@[simp] theorem allocSeg_segHeap_ne (h : j ≠ w.nextSeg) :
    (w.allocSeg d).1.segHeap j = w.segHeap j := by simp [World.allocSeg, h]
@[simp] theorem allocSeg_pHeap : (w.allocSeg d).1.pHeap = w.pHeap := rfl
@[simp] theorem allocSeg_vHeap : (w.allocSeg d).1.vHeap = w.vHeap := rfl
@[simp] theorem allocSeg_eHeap : (w.allocSeg d).1.eHeap = w.eHeap := rfl
@[simp] theorem allocSeg_nextV : (w.allocSeg d).1.nextV = w.nextV := rfl
@[simp] theorem allocSeg_nextE : (w.allocSeg d).1.nextE = w.nextE := rfl
@[simp] theorem allocSeg_paths : (w.allocSeg d).1.paths = w.paths := rfl

end WorldProj

section StateProj

variable (st : NState) (t : PrevT) (d : SegData)

@[simp] theorem finishItem_w : (finishItem st t).w = st.w := by
  unfold finishItem; split <;> rfl
@[simp] theorem finishItem_pid : (finishItem st t).pid = st.pid := by
  unfold finishItem; split <;> rfl
@[simp] theorem finishItem_smooth : (finishItem st t).smooth = st.smooth := by
  unfold finishItem; split <;> rfl
@[simp] theorem finishItem_edge : (finishItem st t).edge = st.edge := by
  unfold finishItem; split <;> rfl
@[simp] theorem finishItem_initialVertex :
    (finishItem st t).initialVertex = st.initialVertex := by
  unfold finishItem; split <;> rfl
@[simp] theorem finishItem_initialSeg : (finishItem st t).initialSeg = st.initialSeg := by
  unfold finishItem; split <;> rfl
@[simp] theorem finishItem_initialX : (finishItem st t).initialX = st.initialX := by
  unfold finishItem; split <;> rfl
@[simp] theorem finishItem_initialY : (finishItem st t).initialY = st.initialY := by
  unfold finishItem; split <;> rfl
@[simp] theorem finishItem_currentX : (finishItem st t).currentX = st.currentX := by
  unfold finishItem; split <;> rfl
@[simp] theorem finishItem_currentY : (finishItem st t).currentY = st.currentY := by
  unfold finishItem; split <;> rfl
@[simp] theorem finishItem_prevX : (finishItem st t).prevX = st.prevX := by
  unfold finishItem; split <;> rfl
@[simp] theorem finishItem_prevY : (finishItem st t).prevY = st.prevY := by
  unfold finishItem; split <;> rfl
@[simp] theorem finishItem_prevAssigned : (finishItem st t).prevAssigned = false := by
  unfold finishItem; split
  case isTrue => rfl
  case isFalse h => simpa using h
@[simp] theorem finishItem_prevType :
    (finishItem st t).prevType = if st.prevAssigned then st.prevType else t := by
  unfold finishItem; split <;> simp [*]

end StateProj

section EdgeAccept

variable (st : NState) (x y : JNum) (ed pd : SegData) (t : PrevT)

theorem edgeAccept_pid : (edgeAccept st x y ed pd t).pid = st.pid := by
  cases he : st.edge <;>
    simp [edgeAccept, acceptSeg, createVertex, createEdge, he]

end EdgeAccept

section EdgeAcceptChar

variable (st : NState) (x y : JNum) (ed pd : SegData) (t : PrevT)

theorem edgeAccept_vertices :
    ((edgeAccept st x y ed pd t).w.pHeap st.pid).vertices =
      (st.w.pHeap st.pid).vertices ++ [st.w.nextV] := by
  cases he : st.edge <;>
    simp [edgeAccept, acceptSeg, createVertex, createEdge, he, jsSpliceIns_atLen]

theorem edgeAccept_edges :
    ((edgeAccept st x y ed pd t).w.pHeap st.pid).edges =
      (st.w.pHeap st.pid).edges ++ [st.w.nextE] := by
  cases he : st.edge <;>
    simp [edgeAccept, acceptSeg, createVertex, createEdge, he, jsSpliceIns_atLen]

theorem edgeAccept_nextV : (edgeAccept st x y ed pd t).w.nextV = st.w.nextV + 1 := by
  cases he : st.edge <;> simp [edgeAccept, acceptSeg, createVertex, createEdge, he]

theorem edgeAccept_vHeap_ne (v : VId) (hv : v ≠ st.w.nextV) :
    (edgeAccept st x y ed pd t).w.vHeap v = st.w.vHeap v := by
  cases he : st.edge <;>
    simp [edgeAccept, acceptSeg, createVertex, createEdge, he, hv]

theorem edgeAccept_vHeap_new_outgoing :
    ((edgeAccept st x y ed pd t).w.vHeap st.w.nextV).outgoing = some st.w.nextE := by
  cases he : st.edge <;>
    simp [edgeAccept, acceptSeg, createVertex, createEdge, he]

theorem edgeAccept_vHeap_new_incoming (e : EId) (he : st.edge = some e) :
    ((edgeAccept st x y ed pd t).w.vHeap st.w.nextV).incoming = some e := by
  simp [edgeAccept, acceptSeg, createVertex, createEdge, he]

theorem edgeAccept_initialVertex :
    (edgeAccept st x y ed pd t).initialVertex =
      (match st.edge with
       | none => some st.w.nextV
       | some _ => st.initialVertex) := by
  cases he : st.edge <;>
    simp [edgeAccept, acceptSeg, createVertex, createEdge, he]

theorem edgeAccept_edge : (edgeAccept st x y ed pd t).edge = some st.w.nextE := by
  cases he : st.edge <;> simp [edgeAccept, acceptSeg, createVertex, createEdge, he]

theorem edgeAccept_prevAssigned : (edgeAccept st x y ed pd t).prevAssigned = false := by
  cases he : st.edge <;> simp [edgeAccept, acceptSeg, createVertex, createEdge, he]

theorem edgeAccept_prevType :
    (edgeAccept st x y ed pd t).prevType =
      if st.prevAssigned then st.prevType else t := by
  cases he : st.edge <;> simp [edgeAccept, acceptSeg, createVertex, createEdge, he]

theorem edgeAccept_currentX : (edgeAccept st x y ed pd t).currentX = x := by
  cases he : st.edge <;> simp [edgeAccept, acceptSeg, createVertex, createEdge, he]

theorem edgeAccept_currentY : (edgeAccept st x y ed pd t).currentY = y := by
  cases he : st.edge <;> simp [edgeAccept, acceptSeg, createVertex, createEdge, he]

theorem edgeAccept_initialX : (edgeAccept st x y ed pd t).initialX = st.initialX := by
  cases he : st.edge <;> simp [edgeAccept, acceptSeg, createVertex, createEdge, he]

theorem edgeAccept_initialY : (edgeAccept st x y ed pd t).initialY = st.initialY := by
  cases he : st.edge <;> simp [edgeAccept, acceptSeg, createVertex, createEdge, he]

end EdgeAcceptChar

theorem edgeAccept_graphInv {st : NState} (x y : JNum) (ed pd : SegData) (t : PrevT)
    (hG : GraphInv st) : GraphInv (edgeAccept st x y ed pd t) := by
  obtain ⟨hc, hf, ho, hi, hei⟩ := hG
  constructor
  · rw [edgeAccept_pid, edgeAccept_vertices, edgeAccept_edges]
    simp [hc]
  · rw [edgeAccept_pid, edgeAccept_vertices, edgeAccept_nextV]
    intro v hv
    rcases List.mem_append.1 hv with h | h
    · exact Nat.lt_succ_of_lt (hf v h)
    · simp only [List.mem_singleton] at h
      subst h
      exact Nat.lt_succ_self _
  · rw [edgeAccept_pid, edgeAccept_vertices]
    intro v hv
    rcases List.mem_append.1 hv with h | h
    · rw [edgeAccept_vHeap_ne st x y ed pd t v (Nat.ne_of_lt (hf v h))]
      exact ho v h
    · simp only [List.mem_singleton] at h
      subst h
      rw [edgeAccept_vHeap_new_outgoing]
      rfl
  · rw [edgeAccept_pid, edgeAccept_vertices]
    intro v hv
    rw [edgeAccept_initialVertex]
    rcases List.mem_append.1 hv with h | h
    · have hne : v ≠ st.w.nextV := Nat.ne_of_lt (hf v h)
      rw [edgeAccept_vHeap_ne st x y ed pd t v hne]
      cases he : st.edge with
      | none =>
        rcases hi v h with hiv | hinc
        · rw [hei.mp he] at hiv
          cases hiv
        · exact Or.inr hinc
      | some e =>
        exact hi v h
    · simp only [List.mem_singleton] at h
      subst h
      cases he : st.edge with
      | none => exact Or.inl rfl
      | some e =>
        refine Or.inr ?_
        rw [edgeAccept_vHeap_new_incoming st x y ed pd t e he]
        rfl
  · rw [edgeAccept_edge, edgeAccept_initialVertex]
    cases he : st.edge with
    | none => simp
    | some e =>
      simp only
      constructor
      · intro h
        cases h
      · intro h
        exact absurd (hei.mpr h) (by simp [he])

section AcceptSegProj

variable (st : NState) (d : SegData)

@[simp] theorem acceptSeg_pid : (acceptSeg st d).1.pid = st.pid := rfl
@[simp] theorem acceptSeg_edge : (acceptSeg st d).1.edge = st.edge := rfl
@[simp] theorem acceptSeg_initialVertex :
    (acceptSeg st d).1.initialVertex = st.initialVertex := rfl
@[simp] theorem acceptSeg_initialSeg : (acceptSeg st d).1.initialSeg = st.initialSeg := rfl
@[simp] theorem acceptSeg_prevAssigned :
    (acceptSeg st d).1.prevAssigned = st.prevAssigned := rfl
@[simp] theorem acceptSeg_prevType : (acceptSeg st d).1.prevType = st.prevType := rfl
@[simp] theorem acceptSeg_smooth : (acceptSeg st d).1.smooth = st.smooth := rfl
@[simp] theorem acceptSeg_initialX : (acceptSeg st d).1.initialX = st.initialX := rfl
@[simp] theorem acceptSeg_initialY : (acceptSeg st d).1.initialY = st.initialY := rfl
@[simp] theorem acceptSeg_currentX : (acceptSeg st d).1.currentX = st.currentX := rfl
@[simp] theorem acceptSeg_currentY : (acceptSeg st d).1.currentY = st.currentY := rfl
@[simp] theorem acceptSeg_vHeap : (acceptSeg st d).1.w.vHeap = st.w.vHeap := by
  simp [acceptSeg]
@[simp] theorem acceptSeg_nextV : (acceptSeg st d).1.w.nextV = st.w.nextV := by
  simp [acceptSeg]
@[simp] theorem acceptSeg_vertices (q : PId) :
    ((acceptSeg st d).1.w.pHeap q).vertices = (st.w.pHeap q).vertices := by
  by_cases hq : q = st.pid <;> simp [acceptSeg, hq]
@[simp] theorem acceptSeg_edgesList (q : PId) :
    ((acceptSeg st d).1.w.pHeap q).edges = (st.w.pHeap q).edges := by
  by_cases hq : q = st.pid <;> simp [acceptSeg, hq]

@[simp] theorem popLastSeg_pid : (popLastSeg st).pid = st.pid := rfl
@[simp] theorem popLastSeg_edge : (popLastSeg st).edge = st.edge := rfl
@[simp] theorem popLastSeg_initialVertex :
    (popLastSeg st).initialVertex = st.initialVertex := rfl
@[simp] theorem popLastSeg_prevAssigned :
    (popLastSeg st).prevAssigned = st.prevAssigned := rfl
@[simp] theorem popLastSeg_prevType : (popLastSeg st).prevType = st.prevType := rfl
@[simp] theorem popLastSeg_vHeap : (popLastSeg st).w.vHeap = st.w.vHeap := by
  simp [popLastSeg]
@[simp] theorem popLastSeg_nextV : (popLastSeg st).w.nextV = st.w.nextV := by
  simp [popLastSeg]
@[simp] theorem popLastSeg_vertices (q : PId) :
    ((popLastSeg st).w.pHeap q).vertices = (st.w.pHeap q).vertices := by
  by_cases hq : q = st.pid <;> simp [popLastSeg, hq]
@[simp] theorem popLastSeg_edgesList (q : PId) :
    ((popLastSeg st).w.pHeap q).edges = (st.w.pHeap q).edges := by
  by_cases hq : q = st.pid <;> simp [popLastSeg, hq]

end AcceptSegProj

theorem handleZcore_inv {st st' : NState} (hG : GraphInv st)
    (hpa : st.prevAssigned = false)
    (hprev : (st.prevType = PrevT.pM ∨ st.prevType = PrevT.pnull ∨ st.prevType = PrevT.pZ) →
      st.edge = none)
    (h : handleZcore st = some st') :
    CtorInv st' ∧ st'.edge = none ∧ st'.initialVertex = none ∧ st'.pid = st.pid := by
  obtain ⟨hc, hf, ho, hi, hei⟩ := hG
  cases hpt : st.prevType
  case pZ =>
    have hen : st.edge = none := hprev (Or.inr (Or.inr hpt))
    simp only [handleZcore, hpt] at h
    obtain rfl : st = st' := by injection h
    exact ⟨⟨⟨hc, hf, ho, hi, hei⟩, hpa, fun _ => hen⟩, hen, hei.mp hen, rfl⟩
  case pM =>
    have hen : st.edge = none := hprev (Or.inl hpt)
    simp only [handleZcore, hpt] at h
    obtain rfl : st = st' := by injection h
    exact ⟨⟨⟨hc, hf, ho, hi, hei⟩, hpa, fun _ => hen⟩, hen, hei.mp hen, rfl⟩
  all_goals {
    cases he : st.edge with
    | none =>
      have hivn : st.initialVertex = none := hei.mp he
      simp only [handleZcore, hpt, he] at h
      injection h with h'
      subst h'
      refine ⟨⟨⟨?_, ?_, ?_, ?_, ?_⟩, ?_, ?_⟩, ?_, ?_, ?_⟩
      · simpa using hc
      · simpa using hf
      · simpa using ho
      · intro v hv
        refine Or.inr ?_
        rcases hi v (by simpa using hv) with hx | hx
        · rw [hivn] at hx
          cases hx
        · simpa using hx
      · simp [he, hivn]
      · simp
      · intro _
        simpa using he
      · simpa using he
      · simpa using hivn
      · simp
    | some e =>
      cases hiv : st.initialVertex with
      | none =>
        simp only [handleZcore, hpt, he, hiv] at h
        exact Option.noConfusion h
      | some iv =>
        simp only [handleZcore, hpt, he, hiv] at h
        injection h with h'
        subst h'
        refine ⟨⟨⟨?_, ?_, ?_, ?_, ?_⟩, ?_, ?_⟩, ?_, ?_, ?_⟩
        · simpa using hc
        · simpa using hf
        · intro v hv
          have hv' : v ∈ (st.w.pHeap st.pid).vertices := by simpa using hv
          simp only [acceptSeg_vHeap, finishItem_w]
          by_cases hvv : v = iv
          · subst hvv
            simp only [updV_vHeap_same, updE_vHeap]
            simpa using ho v hv'
          · rw [updV_vHeap_ne _ _ _ _ hvv]
            simpa using ho v hv'
        · intro v hv
          have hv' : v ∈ (st.w.pHeap st.pid).vertices := by simpa using hv
          refine Or.inr ?_
          simp only [acceptSeg_vHeap, finishItem_w]
          by_cases hvv : v = iv
          · subst hvv
            simp [updV_vHeap_same]
          · rw [updV_vHeap_ne _ _ _ _ hvv]
            rcases hi v hv' with hx | hx
            · rw [hiv] at hx
              injection hx with hx
              exact absurd hx.symm hvv
            · simpa using hx
        · simp
        · simp
        · intro _
          simp
        · simp
        · simp
        · simp
  }

theorem acceptL_eq (st : NState) (x y : JNum) :
    acceptL st x y = edgeAccept st x y (mkLineto x y) (mkLineto x y) PrevT.pOther := rfl

theorem handleZfull_inv {st st' : NState} (hG : GraphInv st)
    (hpa : st.prevAssigned = false)
    (hprev : (st.prevType = PrevT.pM ∨ st.prevType = PrevT.pnull ∨ st.prevType = PrevT.pZ) →
      st.edge = none)
    (h : handleZfull st = some st') :
    CtorInv st' ∧ st'.edge = none ∧ st'.initialVertex = none ∧ st'.pid = st.pid := by
  unfold handleZfull at h
  split at h
  · dsimp only [] at h
    split at h
    · exact Option.noConfusion h
    · have hG1 : GraphInv (acceptL st st.initialX st.initialY) := by
        rw [acceptL_eq]
        exact edgeAccept_graphInv _ _ _ _ _ hG
      have hpa1 : (acceptL st st.initialX st.initialY).prevAssigned = false := by
        rw [acceptL_eq]; exact edgeAccept_prevAssigned _ _ _ _ _ _
      have hprev1 : ((acceptL st st.initialX st.initialY).prevType = PrevT.pM ∨
          (acceptL st st.initialX st.initialY).prevType = PrevT.pnull ∨
          (acceptL st st.initialX st.initialY).prevType = PrevT.pZ) →
          (acceptL st st.initialX st.initialY).edge = none := by
        rw [acceptL_eq, edgeAccept_prevType, hpa]
        simp
      have hres := handleZcore_inv hG1 hpa1 hprev1 h
      refine ⟨hres.1, hres.2.1, hres.2.2.1, ?_⟩
      rw [hres.2.2.2, acceptL_eq, edgeAccept_pid]
  · exact handleZcore_inv ⟨hG.counts, hG.freshV, hG.outg, hG.inc, hG.edgeIv⟩ hpa hprev h

theorem handleMbody_inv {st : NState} (x y : JNum) (t : PrevT)
    (hG : GraphInv st) (hen : st.edge = none) :
    CtorInv (handleMbody st x y t) ∧ (handleMbody st x y t).edge = none ∧
      (handleMbody st x y t).initialVertex = none ∧
      (handleMbody st x y t).pid = st.pid := by
  obtain ⟨hc, hf, ho, hi, hei⟩ := hG
  have hivn : st.initialVertex = none := hei.mp hen
  unfold handleMbody
  rw [hen]
  refine ⟨⟨⟨?_, ?_, ?_, ?_, ?_⟩, ?_, ?_⟩, ?_, ?_, ?_⟩
  · simpa using hc
  · simpa using hf
  · simpa using ho
  · intro v hv
    refine Or.inr ?_
    rcases hi v (by simpa using hv) with hx | hx
    · rw [hivn] at hx
      cases hx
    · simpa using hx
  · simp [hen, hivn]
  · simp
  · intro _
    simpa using hen
  · simpa using hen
  · simpa using hivn
  · simp

theorem handleMpre_inv {st st' : NState} (hC : CtorInv st)
    (h : handleMpre st = some st') :
    GraphInv st' ∧ st'.prevAssigned = false ∧ st'.edge = none ∧
      st'.initialVertex = none ∧ st'.pid = st.pid := by
  obtain ⟨⟨hc, hf, ho, hi, hei⟩, hpa, hprev⟩ := hC
  cases hpt : st.prevType
  case pM =>
    have hen : st.edge = none := hprev (Or.inl hpt)
    have hivn : st.initialVertex = none := hei.mp hen
    simp only [handleMpre, hpt] at h
    injection h with h'
    subst h'
    refine ⟨⟨?_, ?_, ?_, ?_, ?_⟩, ?_, ?_, ?_, ?_⟩
    · simpa using hc
    · simpa using hf
    · simpa using ho
    · intro v hv
      refine Or.inr ?_
      rcases hi v (by simpa using hv) with hx | hx
      · rw [hivn] at hx
        cases hx
      · simpa using hx
    · simp [hen, hivn]
    · simpa using hpa
    · simpa using hen
    · simpa using hivn
    · simp
  case pnull =>
    have hen : st.edge = none := hprev (Or.inr (Or.inl hpt))
    simp only [handleMpre, hpt] at h
    injection h with h'
    subst h'
    exact ⟨⟨hc, hf, ho, hi, hei⟩, hpa, hen, hei.mp hen, rfl⟩
  case pZ =>
    have hen : st.edge = none := hprev (Or.inr (Or.inr hpt))
    simp only [handleMpre, hpt] at h
    injection h with h'
    subst h'
    exact ⟨⟨hc, hf, ho, hi, hei⟩, hpa, hen, hei.mp hen, rfl⟩
  all_goals {
    simp only [handleMpre, hpt] at h
    have hres := handleZfull_inv ⟨hc, hf, ho, hi, hei⟩ hpa hprev h
    exact ⟨⟨hres.1.counts, hres.1.freshV, hres.1.outg, hres.1.inc, hres.1.edgeIv⟩,
      hres.1.pa, hres.2.1, hres.2.2.1, hres.2.2.2⟩
  }

theorem handleMfull_inv {st st' : NState} (x y : JNum) (t : PrevT) (hC : CtorInv st)
    (h : handleMfull st x y t = some st') :
    CtorInv st' ∧ st'.edge = none ∧ st'.initialVertex = none ∧ st'.pid = st.pid := by
  unfold handleMfull at h
  rcases Option.map_eq_some'.1 h with ⟨s1, hpre, rfl⟩
  obtain ⟨hG1, _, hen1, _, hpid1⟩ := handleMpre_inv hC hpre
  have hres := handleMbody_inv x y t hG1 hen1
  exact ⟨hres.1, hres.2.1, hres.2.2.1, hres.2.2.2.trans hpid1⟩

theorem graphInv_update_prev {st : NState} (hG : GraphInv st) (sm pa : Bool)
    (pt : PrevT) (px py : JNum) :
    GraphInv { st with smooth := sm, prevAssigned := pa, prevType := pt,
                       prevX := px, prevY := py } := by
  obtain ⟨hc, hf, ho, hi, hei⟩ := hG
  exact ⟨hc, hf, ho, hi, hei⟩

theorem edgeAccept_ctorInv {st : NState} (x y : JNum) (ed pd : SegData) (t : PrevT)
    (hG : GraphInv st)
    (hgood : (if st.prevAssigned then st.prevType else t) ≠ PrevT.pM ∧
             (if st.prevAssigned then st.prevType else t) ≠ PrevT.pnull ∧
             (if st.prevAssigned then st.prevType else t) ≠ PrevT.pZ) :
    CtorInv (edgeAccept st x y ed pd t) := by
  refine ⟨edgeAccept_graphInv x y ed pd t hG, edgeAccept_prevAssigned st x y ed pd t, ?_⟩
  rw [edgeAccept_prevType]
  intro hbad
  rcases hbad with hb | hb | hb
  · exact absurd hb hgood.1
  · exact absurd hb hgood.2.1
  · exact absurd hb hgood.2.2.elim

theorem dispatchCore_inv {st st' : NState} (item : InSeg) (hC : CtorInv st)
    (h : dispatchCore st item = some st') : CtorInv st' ∧ st'.pid = st.pid := by
  obtain ⟨hG, hpa, hprev⟩ := hC
  cases item with
  | M abs xx yy =>
    simp only [dispatchCore] at h
    have hres := handleMfull_inv _ _ _ ⟨hG, hpa, hprev⟩ h
    exact ⟨hres.1, hres.2.2.2⟩
  | L abs xx yy =>
    simp only [dispatchCore] at h
    injection h with h'
    subst h'
    rw [acceptL_eq]
    exact ⟨edgeAccept_ctorInv _ _ _ _ _ hG (by rw [hpa]; simp),
      edgeAccept_pid _ _ _ _ _ _⟩
  | H abs xx =>
    simp only [dispatchCore] at h
    injection h with h'
    subst h'
    rw [acceptL_eq]
    exact ⟨edgeAccept_ctorInv _ _ _ _ _ hG (by rw [hpa]; simp),
      edgeAccept_pid _ _ _ _ _ _⟩
  | V abs yy =>
    simp only [dispatchCore] at h
    injection h with h'
    subst h'
    rw [acceptL_eq]
    exact ⟨edgeAccept_ctorInv _ _ _ _ _ hG (by rw [hpa]; simp),
      edgeAccept_pid _ _ _ _ _ _⟩
  | C abs x1 y1 x2 y2 xx yy =>
    simp only [dispatchCore] at h
    injection h with h'
    subst h'
    exact ⟨edgeAccept_ctorInv _ _ _ _ _ hG (by rw [hpa]; simp),
      edgeAccept_pid _ _ _ _ _ _⟩
  | A abs r1 r2 ang laf sf xx yy =>
    simp only [dispatchCore] at h
    injection h with h'
    subst h'
    exact ⟨edgeAccept_ctorInv _ _ _ _ _ hG (by rw [hpa]; simp),
      edgeAccept_pid _ _ _ _ _ _⟩
  | S abs x2 y2 xx yy =>
    simp only [dispatchCore] at h
    injection h with h'
    subst h'
    exact ⟨edgeAccept_ctorInv _ _ _ _ _ (graphInv_update_prev hG _ _ _ _ _)
      (by simp), edgeAccept_pid _ _ _ _ _ _⟩
  | Q abs x1 y1 xx yy =>
    simp only [dispatchCore] at h
    injection h with h'
    subst h'
    exact ⟨edgeAccept_ctorInv _ _ _ _ _ (graphInv_update_prev hG _ _ _ _ _)
      (by simp), edgeAccept_pid _ _ _ _ _ _⟩
  | T abs xx yy =>
    simp only [dispatchCore] at h
    injection h with h'
    subst h'
    exact ⟨edgeAccept_ctorInv _ _ _ _ _ (graphInv_update_prev hG _ _ _ _ _)
      (by simp), edgeAccept_pid _ _ _ _ _ _⟩
  | Z =>
    simp only [dispatchCore] at h
    have hres := handleZfull_inv hG hpa hprev h
    exact ⟨hres.1, hres.2.2.2⟩
  | U =>
    simp only [dispatchCore] at h
    injection h with h'
    subst h'
    exact ⟨⟨hG, hpa, hprev⟩, rfl⟩

theorem dispatch_inv {st st' : NState} (item : InSeg) (hC : CtorInv st)
    (h : dispatch st item = some st') : CtorInv st' ∧ st'.pid = st.pid := by
  unfold dispatch at h
  dsimp only [] at h
  split at h
  · rcases Option.bind_eq_some.1 h with ⟨s1, h1, h2⟩
    obtain ⟨hC1, _, _, hp1⟩ := handleMfull_inv _ _ _ hC h1
    obtain ⟨hC2, hp2⟩ := dispatchCore_inv item hC1 h2
    exact ⟨hC2, hp2.trans hp1⟩
  · rcases Option.bind_eq_some.1 h with ⟨s1, h1, h2⟩
    injection h1 with h1'
    subst h1'
    exact dispatchCore_inv item hC h2

theorem runItems_inv {items : List InSeg} : ∀ {st st' : NState}, CtorInv st →
    runItems st items = some st' → CtorInv st' ∧ st'.pid = st.pid := by
  induction items with
  | nil =>
    intro st st' hC h
    injection h with h'
    subst h'
    exact ⟨hC, rfl⟩
  | cons i rest ih =>
    intro st st' hC h
    simp only [runItems] at h
    rcases Option.bind_eq_some.1 h with ⟨s1, h1, h2⟩
    obtain ⟨hC1, hp1⟩ := dispatch_inv i hC h1
    obtain ⟨hC2, hp2⟩ := ih hC1 h2
    exact ⟨hC2, hp2.trans hp1⟩

theorem ctorFinish_inv {st st' : NState} (hC : CtorInv st)
    (h : ctorFinish st = some st') :
    GraphInv st' ∧ st'.edge = none ∧ st'.initialVertex = none ∧ st'.pid = st.pid := by
  obtain ⟨hG, hpa, hprev⟩ := hC
  unfold ctorFinish at h
  split at h
  case h_1 e he =>
    have hres := handleZfull_inv hG hpa hprev h
    exact ⟨⟨hres.1.counts, hres.1.freshV, hres.1.outg, hres.1.inc, hres.1.edgeIv⟩,
      hres.2.1, hres.2.2.1, hres.2.2.2⟩
  case h_2 he =>
    obtain ⟨hc, hf, ho, hi, hei⟩ := hG
    have hivn : st.initialVertex = none := hei.mp he
    split at h
    · injection h with h'
      subst h'
      refine ⟨⟨?_, ?_, ?_, ?_, ?_⟩, ?_, ?_, ?_⟩
      · simpa using hc
      · simpa using hf
      · simpa using ho
      · intro v hv
        refine Or.inr ?_
        rcases hi v (by simpa using hv) with hx | hx
        · rw [hivn] at hx
          cases hx
        · simpa using hx
      · simp [he, hivn]
      · simpa using he
      · simpa using hivn
      · simp
    · injection h with h'
      subst h'
      exact ⟨⟨hc, hf, ho, hi, hei⟩, he, hivn, rfl⟩

/-! ## Claim theorems -/

/-- **C10.** After Path construction (normalization) completes
successfully, every subpath is closed (a trailing subpath ending in a
drawing command receives a synthesized closepath, preceded when needed by
a synthesized lineto, and a trailing lone moveto is deleted);
consequently every vertex of a successfully constructed Path has both a
non-null incoming edge and a non-null outgoing edge, and the Path's vertex
count equals its edge count. -/
theorem c10_construction_closed (w : World) (items : List InSeg) (idx : Option ℤ)
    (pid : PId) (w' : World)
    (h : createPath w items idx = some (some pid, w')) :
    (∀ v ∈ (w'.pHeap pid).vertices,
      ((w'.vHeap v).incoming).isSome = true ∧ ((w'.vHeap v).outgoing).isSome = true) ∧
    (w'.pHeap pid).vertices.length = (w'.pHeap pid).edges.length := by
  unfold createPath newPathObj at h
  dsimp only [] at h
  set w1 : World := { w with pHeap := hupd w.pHeap w.nextP {}, nextP := w.nextP + 1 } with hw1
  split at h
  · exact Option.noConfusion h
  case h_2 wc hctor =>
    split at h
    · injection h with h'
      injection h' with h1 h2
      exact Option.noConfusion h1
    · injection h with h'
      injection h' with h1 h2
      injection h1 with h1
      subst h1
      subst h2
      unfold pathCtor at hctor
      rcases Option.map_eq_some'.1 hctor with ⟨stf, hbind, hwc⟩
      rcases Option.bind_eq_some.1 hbind with ⟨st1, hrun, hfin⟩
      have hC0 : CtorInv ({ w := w1, pid := w.nextP } : NState) := by
        refine ⟨⟨?_, ?_, ?_, ?_, ?_⟩, rfl, fun _ => rfl⟩ <;>
          simp [hw1]
      obtain ⟨hC1, hp1⟩ := runItems_inv hC0 hrun
      obtain ⟨hGf, _, hivf, hpf⟩ := ctorFinish_inv hC1 hfin
      obtain ⟨hc, hf, ho, hi, hei⟩ := hGf
      rw [hp1] at hpf
      rw [hpf] at hc ho hi
      subst hwc
      constructor
      · intro v hv
        refine ⟨?_, ho v (by simpa using hv)⟩
        rcases hi v (by simpa using hv) with hx | hx
        · rw [hivf] at hx
          cases hx
        · simpa using hx
      · simpa using hc

/-- Witness for C10 at the spec's rectangle example: the constructed path
has 4 vertices, each doubly linked, and as many vertices as edges. -/
theorem c10_construction_closed_witness :
    (∀ v ∈ (rectW.pHeap 0).vertices,
      ((rectW.vHeap v).incoming).isSome = true ∧ ((rectW.vHeap v).outgoing).isSome = true) ∧
    (rectW.pHeap 0).vertices.length = (rectW.pHeap 0).edges.length :=
  c10_construction_closed {} rectDesc none 0 rectW rfl

/-- **C8 (code bug).** In `smoothDesc` the `S` command is directly
preceded by a plain cubic whose trailing control point is (1,1) and the
current point is (2,2), so per the claim the implicit leading control
point should be the reflection `2*(2,2) - (1,1) = (3,3)`.  The source
records the previous trailing control point (`prevX`/`prevY`) only in its
`Q`/`S`/`T` cases, never in the plain `C` case, so the reflection is
computed from the still-undefined `prevX`, and the constructed cubic's
leading control point is `NaN` instead of 3. -/
theorem c8_smooth_reflection_nan :
    (smoothW.segHeap 1).kind = SegKind.C ∧
    (smoothW.segHeap 1).x2 = JNum.num 1 ∧ (smoothW.segHeap 1).y2 = JNum.num 1 ∧
    (smoothW.segHeap 1).x = JNum.num 2 ∧ (smoothW.segHeap 1).y = JNum.num 2 ∧
    (smoothW.segHeap 4).x1 = JNum.nan ∧ (smoothW.segHeap 4).y1 = JNum.nan ∧
    JNum.nan ≠ JNum.num 3 :=
  ⟨rfl, rfl, rfl, rfl, rfl, rfl, rfl, by decide⟩

theorem foldl_releaseEdge_paths (l : List EId) (w : World) :
    (l.foldl releaseEdge w).paths = w.paths := by
  induction l generalizing w with
  | nil => rfl
  | cons e rest ih => simp [List.foldl_cons, ih, releaseEdge, World.updE]

theorem foldl_releaseVertex_paths (l : List VId) (w : World) :
    (l.foldl releaseVertex w).paths = w.paths := by
  induction l generalizing w with
  | nil => rfl
  | cons v rest ih => simp [List.foldl_cons, ih, releaseVertex, World.updV]

theorem foldl_releaseEdge_releasedP (l : List EId) (w : World) :
    (l.foldl releaseEdge w).releasedP = w.releasedP := by
  induction l generalizing w with
  | nil => rfl
  | cons e rest ih => simp [List.foldl_cons, ih, releaseEdge, World.updE]

theorem foldl_releaseVertex_releasedP (l : List VId) (w : World) :
    (l.foldl releaseVertex w).releasedP = w.releasedP := by
  induction l generalizing w with
  | nil => rfl
  | cons v rest ih => simp [List.foldl_cons, ih, releaseVertex, World.updV]

theorem releasePath_paths (w : World) (pid : PId) :
    (releasePath w pid).paths = w.paths := by
  simp [releasePath, World.updP, foldl_releaseEdge_paths, foldl_releaseVertex_paths]

theorem releasePath_releasedP (w : World) (pid : PId) :
    (releasePath w pid).releasedP = pid :: w.releasedP := by
  simp [releasePath, World.updP, foldl_releaseEdge_releasedP, foldl_releaseVertex_releasedP]

/-- **C5 counterexample.** The descriptor `M 0 0` normalizes to zero
vertices (the trailing lone moveto is deleted), yet Path construction
succeeds: `createPath` on an empty root returns a path entity (id 0) and
adds it to `root.paths`, because the source's rejection test
`vertices.length <= 1 && getTotalLength() > 0` also requires positive
traced length.  This contradicts the claim that a descriptor yielding zero
vertices makes construction fail with no entity. -/
theorem c5_zero_vertices_accepted :
    createPath ({} : World) [InSeg.M true 0 0] none = some (some 0, lonelyMovetoW) ∧
    ((lonelyMovetoW.pHeap 0).vertices = [] ∧ pathLenPos lonelyMovetoW 0 = false) ∧
    lonelyMovetoW.paths = [0] :=
  ⟨rfl, ⟨rfl, rfl⟩, rfl⟩

/-- **C5 (amended).** For every descriptor whose normalization yields at
most one vertex while the traced length is positive, Path construction
fails: `createPath` returns no entity (`null`), the constructed path is
released, and `root.paths` is left untouched.  (A descriptor yielding zero
vertices and zero traced length instead produces an empty path entity that
is added — see the counterexample.) -/
theorem c5_degenerate_construction_fails (w : World) (items : List InSeg)
    (idx : Option ℤ) (wc : World)
    (h : pathCtor { w with pHeap := hupd w.pHeap w.nextP {}, nextP := w.nextP + 1 }
          w.nextP items = some wc)
    (hdeg : (wc.pHeap w.nextP).vertices.length ≤ 1 ∧ pathLenPos wc w.nextP = true) :
    createPath w items idx = some (none, releasePath wc w.nextP) ∧
    (releasePath wc w.nextP).paths = wc.paths ∧
    w.nextP ∈ (releasePath wc w.nextP).releasedP := by
  refine ⟨?_, releasePath_paths wc w.nextP, by
    rw [releasePath_releasedP]; exact List.mem_cons_self _ _⟩
  unfold createPath newPathObj
  dsimp only []
  rw [h]
  dsimp only []
  simp [hdeg.1, hdeg.2]

/-- Witness for C5 (amended): the one-vertex positive-length self-loop
`M 0 0 C 1 1 2 2 0 0` is rejected. -/
theorem c5_degenerate_construction_fails_witness :
    createPath ({} : World) degenDesc none =
      some (none, releasePath (((pathCtor { ({} : World) with
        pHeap := hupd (({} : World)).pHeap 0 {}, nextP := 1 } 0 degenDesc).getD {})) 0) ∧
    (releasePath (((pathCtor { ({} : World) with
        pHeap := hupd (({} : World)).pHeap 0 {}, nextP := 1 } 0 degenDesc).getD {})) 0).paths =
      ((pathCtor { ({} : World) with
        pHeap := hupd (({} : World)).pHeap 0 {}, nextP := 1 } 0 degenDesc).getD {}).paths ∧
    (0 : PId) ∈ (releasePath (((pathCtor { ({} : World) with
        pHeap := hupd (({} : World)).pHeap 0 {}, nextP := 1 } 0 degenDesc).getD {})) 0).releasedP :=
  c5_degenerate_construction_fails {} degenDesc none _ rfl ⟨by decide, rfl⟩

/-- **C6 (code bug).** On a root holding two paths (ids 0 and 1),
`insert(descriptor, 0)` should insert the new path at position 0, so that
`get(0)` returns it.  `Root.insert` computes the clamped index but then
calls `createPath(element, this)` without passing it, so `createPath` sees
an undefined index and appends: the new path (id 2) lands at position 2,
`root.paths` becomes `[0, 1, 2]`, and `get(0)` still returns the old path
0. -/
theorem c6_insert_ignores_index :
    c6W1.paths = [0, 1] ∧
    rootInsert c6W1 triDesc false (some 0) = some (some 2, c6W2) ∧
    c6W2.paths = [0, 1, 2] ∧
    rootGet c6W2 0 = some 0 ∧
    (0 : PId) ≠ 2 :=
  ⟨rfl, rfl, rfl, rfl, by decide⟩


unseal Rat.add Rat.mul Rat.sub Rat.inv in
/-- **C3 (code bug).** An identity transform (`transform({})`) does not
leave every coordinate unchanged.  Single-vertex mode: the snapshot of
vertex 0 of the cubic path stores `incoming.x1`/`outgoing.x2` read off the
`Edge` objects themselves — properties they do not possess — so the
identity transform overwrites the outgoing cubic's first control point
(baseline 10) with `undefined + 0 = NaN`.  Whole-path mode: an arc's
rotation angle is written back as `(angle + 0) % 360`, so the baseline
angle 400 becomes 40. -/
theorem c3_identity_transform_changes_coords :
    (cubicW.segHeap 1).x1 = JNum.num 10 ∧
    (mkSnapVertex cubicW 0 0 0).bind (fun s => transformWithOpts cubicW s {}) =
      some c3VertexW ∧
    (c3VertexW.segHeap 1).x1 = JNum.nan ∧
    (arcW.segHeap 1).angle = JNum.num 400 ∧
    transformWithOpts arcW (mkSnapPath arcW 0 0 0) {} = some c3PathW ∧
    (c3PathW.segHeap 1).angle = JNum.num 40 ∧
    JNum.nan ≠ JNum.num 10 ∧ JNum.num 40 ≠ JNum.num 400 :=
  ⟨by decide, rfl, by decide, by decide, rfl, by decide, by decide, by decide⟩

unseal Rat.add Rat.mul Rat.sub Rat.inv in
/-- **C4 (code bug).** In single-vertex mode only the offset matters: the
scale/rotation options (`s`, `sy`, `angle`, `sin`, `cos`) and the center
have no effect (first conjunct, for arbitrary snapshots and options).
But the near control point of a cubic incident edge does not translate by
`(dx, dy)` as the claim states: the snapshot reads `incoming.x1` /
`outgoing.x2` off the `Edge` objects, which lack those properties, so the
control point is overwritten with `undefined + dx = NaN`.  Concretely,
moving vertex 1 of the cubic path by `dx = 1` moves the anchor 50 → 51 and
leaves the far control point 10 untouched, but sets the near control point
(baseline 30, expected 31) to `NaN`. -/
theorem c4_single_vertex_offset_only :
    (∀ (w : World) (p : PId) (items : List VSnapItem) (cx cy : ℚ) (r r' : ROpts),
      r.dx = r'.dx → r.dy = r'.dy →
      applyTransform w ⟨p, SnapData.vertexMode items, cx, cy⟩ r =
        applyTransform w ⟨p, SnapData.vertexMode items, cx, cy⟩ r') ∧
    (cubicW.segHeap 1).x2 = JNum.num 30 ∧
    (mkSnapVertex cubicW 1 0 0).bind
      (fun s => transformWithOpts cubicW s { dx := some 1 }) = some c4W ∧
    (c4W.segHeap 1).x = JNum.num 51 ∧ (c4W.vHeap 1).vx = JNum.num 51 ∧
    (c4W.segHeap 1).x1 = JNum.num 10 ∧
    (c4W.segHeap 1).x2 = JNum.nan ∧ JNum.nan ≠ JNum.num 31 := by
  refine ⟨?_, by decide, rfl, by decide, by decide, by decide, by decide, by decide⟩
  intro w p items cx cy r r' hdx hdy
  have hitem : ∀ (w2 : World) (it : VSnapItem),
      transformVertexItem r w2 it = transformVertexItem r' w2 it := by
    intro w2 it
    unfold transformVertexItem
    rw [hdx, hdy]
  show transformVertexItems r w items = transformVertexItems r' w items
  induction items generalizing w with
  | nil => rfl
  | cons it rest ih =>
    show (transformVertexItem r w it).bind _ = (transformVertexItem r' w it).bind _
    rw [hitem w it]
    cases transformVertexItem r' w it with
    | none => rfl
    | some w2 => exact ih w2

/-- Witness for C4's universal conjunct: a concrete snapshot item
transformed with heavy scale/rotation options gives the same world as with
the identity scale/rotation. -/
theorem c4_single_vertex_offset_only_witness :
    applyTransform cubicW
      ⟨0, SnapData.vertexMode
        [⟨1, 0, 1, JNum.num 50, JNum.num 60, JNum.undef, JNum.undef,
          JNum.undef, JNum.undef⟩], 0, 0⟩
      { cx := 0, cy := 0, dx := 1, dy := 0, s := 99, sy := 7,
        angle := 45, sin := 1, cos := 0 } =
    applyTransform cubicW
      ⟨0, SnapData.vertexMode
        [⟨1, 0, 1, JNum.num 50, JNum.num 60, JNum.undef, JNum.undef,
          JNum.undef, JNum.undef⟩], 0, 0⟩
      { cx := 0, cy := 0, dx := 1, dy := 0 } :=
  c4_single_vertex_offset_only.1 cubicW 0
    [⟨1, 0, 1, JNum.num 50, JNum.num 60, JNum.undef, JNum.undef,
      JNum.undef, JNum.undef⟩] 0 0
    { cx := 0, cy := 0, dx := 1, dy := 0, s := 99, sy := 7,
      angle := 45, sin := 1, cos := 0 }
    { cx := 0, cy := 0, dx := 1, dy := 0 } rfl rfl
theorem edgeAccept_segList (st : NState) (x y : JNum) (ed pd : SegData) (t : PrevT) :
    ((edgeAccept st x y ed pd t).w.pHeap st.pid).segList =
      (st.w.pHeap st.pid).segList ++ [st.w.nextSeg] := by
  cases he : st.edge <;>
    simp [edgeAccept, acceptSeg, createVertex, createEdge, he]

theorem edgeAccept_pathSegData (st : NState) (x y : JNum) (ed pd : SegData) (t : PrevT) :
    (edgeAccept st x y ed pd t).w.segHeap st.w.nextSeg = pd := by
  cases he : st.edge <;>
  · simp [edgeAccept, acceptSeg, createVertex, createEdge, World.allocSeg, he]
    rw [hupd_other _ _ _ _ (by omega), hupd_other _ _ _ _ (by omega), hupd_same]

theorem elev_num (p q : ℚ) :
    elev (JNum.num p) (JNum.num q) = JNum.num (p + (q - p) * 2 / 3) := by
  simp only [elev, JNum.sub_num, JNum.mul_num, JNum.div]
  rw [if_neg (by norm_num : ¬(3:ℚ) = 0), JNum.add_num]

/-- **C7.** During normalization, every quadratic curveto (`Q`/`q`, and
`T`/`t` after its implicit control point is determined) with current point
`(cx, cy)`, endpoint `P_end` and absolutized quadratic control point `Q`
is rewritten as the cubic whose first control point is
`P_start + 2/3 * (Q - P_start)`, whose second control point is
`P_end + 2/3 * (Q - P_end)`, and whose endpoint is `P_end`: the segment
appended to the path's list carries exactly these values.  Conjuncts:
absolute `Q`; relative `q` (arguments offset by the current point); `T`
after a quadratic (`Q` = reflection `2*current - prev` of the recorded
control point); `T` otherwise (`Q` = current point). -/
theorem c7_quadratic_rewritten_as_cubic (st : NState) (cx cy : ℚ)
    (hcx : st.currentX = JNum.num cx) (hcy : st.currentY = JNum.num cy) :
    (∀ (st' : NState) (qx qy ex ey : ℚ),
      dispatchCore st (InSeg.Q true qx qy ex ey) = some st' →
      (st'.w.pHeap st.pid).segList = (st.w.pHeap st.pid).segList ++ [st.w.nextSeg] ∧
      st'.w.segHeap st.w.nextSeg =
        mkCubic (JNum.num ex) (JNum.num ey)
          (JNum.num (cx + 2/3 * (qx - cx))) (JNum.num (cy + 2/3 * (qy - cy)))
          (JNum.num (ex + 2/3 * (qx - ex))) (JNum.num (ey + 2/3 * (qy - ey)))) ∧
    (∀ (st' : NState) (qx qy ex ey : ℚ),
      dispatchCore st (InSeg.Q false qx qy ex ey) = some st' →
      (st'.w.pHeap st.pid).segList = (st.w.pHeap st.pid).segList ++ [st.w.nextSeg] ∧
      st'.w.segHeap st.w.nextSeg =
        mkCubic (JNum.num (ex + cx)) (JNum.num (ey + cy))
          (JNum.num (cx + 2/3 * ((qx + cx) - cx))) (JNum.num (cy + 2/3 * ((qy + cy) - cy)))
          (JNum.num ((ex + cx) + 2/3 * ((qx + cx) - (ex + cx))))
          (JNum.num ((ey + cy) + 2/3 * ((qy + cy) - (ey + cy))))) ∧
    (∀ (st' : NState) (px py ex ey : ℚ),
      st.prevType = PrevT.pQ → st.prevX = JNum.num px → st.prevY = JNum.num py →
      dispatchCore st (InSeg.T true ex ey) = some st' →
      (st'.w.pHeap st.pid).segList = (st.w.pHeap st.pid).segList ++ [st.w.nextSeg] ∧
      st'.w.segHeap st.w.nextSeg =
        mkCubic (JNum.num ex) (JNum.num ey)
          (JNum.num (cx + 2/3 * ((2*cx - px) - cx))) (JNum.num (cy + 2/3 * ((2*cy - py) - cy)))
          (JNum.num (ex + 2/3 * ((2*cx - px) - ex))) (JNum.num (ey + 2/3 * ((2*cy - py) - ey)))) ∧
    (∀ (st' : NState) (ex ey : ℚ),
      st.prevType ≠ PrevT.pQ →
      dispatchCore st (InSeg.T true ex ey) = some st' →
      (st'.w.pHeap st.pid).segList = (st.w.pHeap st.pid).segList ++ [st.w.nextSeg] ∧
      st'.w.segHeap st.w.nextSeg =
        mkCubic (JNum.num ex) (JNum.num ey)
          (JNum.num (cx + 2/3 * (cx - cx))) (JNum.num (cy + 2/3 * (cy - cy)))
          (JNum.num (ex + 2/3 * (cx - ex))) (JNum.num (ey + 2/3 * (cy - ey)))) := by
  refine ⟨?_, ?_, ?_, ?_⟩
  · intro st' qx qy ex ey h
    simp only [dispatchCore] at h
    injection h with h'
    subst h'
    refine ⟨edgeAccept_segList _ _ _ _ _ _, ?_⟩
    rw [edgeAccept_pathSegData]
    simp only [mkCubic, rel, if_pos, hcx, hcy, elev_num, SegData.mk.injEq,
      JNum.num.injEq, and_true, true_and]
    refine ⟨?_, ?_, ?_, ?_⟩ <;> ring
  · intro st' qx qy ex ey h
    simp only [dispatchCore] at h
    injection h with h'
    subst h'
    refine ⟨edgeAccept_segList _ _ _ _ _ _, ?_⟩
    rw [edgeAccept_pathSegData]
    simp only [mkCubic, rel, Bool.false_eq_true, if_false, hcx, hcy,
      JNum.add_num, elev_num, SegData.mk.injEq, JNum.num.injEq, and_true, true_and]
    repeat' apply And.intro
    all_goals ring
  · intro st' px py ex ey hpt hpx hpy h
    simp only [dispatchCore, hpt, if_pos, hpx, hpy, hcx, hcy] at h
    injection h with h'
    subst h'
    refine ⟨edgeAccept_segList _ _ _ _ _ _, ?_⟩
    rw [edgeAccept_pathSegData]
    simp only [mkCubic, rel, if_pos, hcx, hcy, JNum.mul_num, JNum.sub_num,
      elev_num, SegData.mk.injEq, JNum.num.injEq, and_true, true_and]
    refine ⟨?_, ?_, ?_, ?_⟩ <;> ring
  · intro st' ex ey hpt h
    simp only [dispatchCore] at h
    rw [if_neg hpt] at h
    injection h with h'
    subst h'
    refine ⟨edgeAccept_segList _ _ _ _ _ _, ?_⟩
    rw [edgeAccept_pathSegData]
    dsimp only []
    simp only [mkCubic, rel, if_pos, hcx, hcy, elev_num, SegData.mk.injEq,
      JNum.num.injEq, and_true, true_and]
    repeat' apply And.intro
    all_goals ring

/-- Witness for C7: the absolute-`Q` conjunct applied at the initial
normalizer state (current point `(0,0)`) with control point `(3,6)` and
endpoint `(6,0)`: the stored segment is the elevated cubic. -/
theorem c7_quadratic_rewritten_as_cubic_witness :
    ((dispatchCore ({ w := {}, pid := 0 } : NState) (InSeg.Q true 3 6 6 0)).getD
        { w := {}, pid := 0 }).w.segHeap 0 =
      mkCubic (JNum.num 6) (JNum.num 0)
        (JNum.num (0 + 2/3 * (3 - 0))) (JNum.num (0 + 2/3 * (6 - 0)))
        (JNum.num (6 + 2/3 * (3 - 6))) (JNum.num (0 + 2/3 * (6 - 0))) :=
  ((c7_quadratic_rewritten_as_cubic { w := {}, pid := 0 } 0 0 rfl rfl).1 _ 3 6 6 0 rfl).2

set_option maxHeartbeats 4000000 in
/-- **C9.** For every two-vertex closed loop `M a b L c d Z` with distinct
points (the claim's two-straight-edge loop, at arbitrary coordinates),
construction succeeds with path id 0 and vertices `[0, 1]`, and deleting
either vertex succeeds, removes the path from `root.paths` (leaving it
empty) and releases the path.  The merged remainder is a single
zero-length self-loop edge, so the `last` branch deletes it and the
emptied path as well. -/
theorem c9_two_vertex_loop_deleted (a b c d : ℚ) (hne : a ≠ c ∨ b ≠ d) :
    (createPath {} (loopDesc a b c d) none).map Prod.fst = some (some 0) ∧
    ((c9LoopW a b c d).pHeap 0).vertices = [0, 1] ∧
    ∀ v : VId, v = 0 ∨ v = 1 →
      (deleteVertex (c9LoopW a b c d) v).isSome = true ∧
      ((deleteVertex (c9LoopW a b c d) v).getD {}).paths = [] ∧
      ((deleteVertex (c9LoopW a b c d) v).getD {}).releasedP = [0] := by
  have hor : ¬a = c ∨ ¬b = d := by
    rcases hne with h | h
    exacts [Or.inl h, Or.inr h]
  refine ⟨?_, ?_, ?_⟩
  · simp [createPath, loopDesc, newPathObj, pathCtor, runItems, dispatch, dispatchCore,
      handleMfull, handleMpre, handleMbody, handleZfull, handleZcore, acceptL, edgeAccept,
      acceptSeg, finishItem, popLastSeg, ctorFinish, createVertex, createEdge,
      World.allocSeg, World.updP, World.updV, World.updE, hupd, jsSpliceIns, jsOrLen,
      isAbsMoveto, rel, pathLenPos, segsLenPos, mkMoveto, mkLineto, mkClose, hor,
      JNum.sne, JNum.seq]
  · simp [c9LoopW, createPath, loopDesc, newPathObj, pathCtor, runItems, dispatch, dispatchCore,
      handleMfull, handleMpre, handleMbody, handleZfull, handleZcore, acceptL, edgeAccept,
      acceptSeg, finishItem, popLastSeg, ctorFinish, createVertex, createEdge,
      World.allocSeg, World.updP, World.updV, World.updE, hupd, jsSpliceIns, jsOrLen,
      isAbsMoveto, rel, pathLenPos, segsLenPos, mkMoveto, mkLineto, mkClose, hor,
      JNum.sne, JNum.seq]
  · rintro v (rfl | rfl) <;>
    · refine ⟨?_, ?_, ?_⟩ <;>
      simp [c9LoopW, createPath, loopDesc, newPathObj, pathCtor, runItems, dispatch, dispatchCore,
        handleMfull, handleMpre, handleMbody, handleZfull, handleZcore, acceptL, edgeAccept,
        acceptSeg, finishItem, popLastSeg, ctorFinish, createVertex, createEdge,
        World.allocSeg, World.updP, World.updV, World.updE, World.updSeg, hupd, jsSpliceIns, jsOrLen,
        isAbsMoveto, rel, pathLenPos, segsLenPos, mkMoveto, mkLineto, mkClose, hor,
        JNum.sne, JNum.seq, deleteVertex, deleteVertexLast, segmentIndex, jsRemoveElem,
        releaseEdge, releaseVertex, releasePath, edgeLenZero, change,
        List.indexOf?, List.findIdx?_nil, List.findIdx?_cons]

/-- Witness for C9: deleting vertex 1 of the concrete loop `M 0 0 L 5 5 Z`
removes the path from `root.paths` and releases it. -/
theorem c9_two_vertex_loop_deleted_witness :
    (deleteVertex (c9LoopW 0 0 5 5) 1).isSome = true ∧
    ((deleteVertex (c9LoopW 0 0 5 5) 1).getD {}).paths = [] ∧
    ((deleteVertex (c9LoopW 0 0 5 5) 1).getD {}).releasedP = [0] :=
  (c9_two_vertex_loop_deleted 0 0 5 5 (Or.inl (by norm_num))).2.2 1 (Or.inr rfl)

/-- **C1 counterexample.** Splitting the concrete cubic edge of
`M 0 0 C 10 20 30 40 50 60 Z` at `(7, 8)`: contrary to the claim, the
curve data does not move onto the new trailing edge — the leading
(original) edge keeps the cubic kind and both control points, only its
endpoint moves to the split point, while the new trailing edge's path
segment is a plain lineto to the original far endpoint. -/
theorem c1_split_counterexample :
    (c1SplitW.eHeap 0).segment = some 1 ∧
    (c1SplitW.segHeap 1).kind = SegKind.C ∧
    (c1SplitW.segHeap 1).x1 = JNum.num 10 ∧
    (c1SplitW.segHeap 1).y1 = JNum.num 20 ∧
    (c1SplitW.segHeap 1).x = JNum.num 7 ∧
    (c1SplitW.segHeap 1).y = JNum.num 8 ∧
    (c1SplitW.eHeap 2).segment = some 8 ∧
    (c1SplitW.segHeap 8).kind = SegKind.L ∧
    (c1SplitW.segHeap 8).x1 = JNum.undef ∧
    (c1SplitW.segHeap 8).x = JNum.num 50 ∧
    (c1SplitW.segHeap 8).y = JNum.num 60 := by decide

set_option maxHeartbeats 4000000 in
/-- **C1 (amended).** For the parametric cubic path and every split point,
`splitEdge(edge 0, (x, y))` returns the fresh vertex 2 placed at the split
point, linked between the original edge and the new edge.  The original
edge keeps its kind and curve data with its endpoint moved to the split
point; the new trailing edge's path segment is a plain lineto carrying the
original far endpoint; the chain is relinked (`edge.end = vertex`,
`split.end = old end`).  When the edge's segment is not present in the
path's segment list the call is a no-op returning no vertex (final
conjunct, for every world). -/
theorem c1_split_edge_amended (a b q1 q2 q3 q4 c d x y : ℚ) (hne : a ≠ c ∨ b ≠ d) :
    (((splitEdge (c1CubicW a b q1 q2 q3 q4 c d) 0 (JNum.num x) (JNum.num y)).map Prod.fst
        = some (some 2)) ∧
    ((c1SplitResW a b q1 q2 q3 q4 c d x y).vHeap 2).vx = JNum.num x ∧
    ((c1SplitResW a b q1 q2 q3 q4 c d x y).vHeap 2).vy = JNum.num y ∧
    ((c1SplitResW a b q1 q2 q3 q4 c d x y).vHeap 2).incoming = some 0 ∧
    ((c1SplitResW a b q1 q2 q3 q4 c d x y).vHeap 2).outgoing = some 2 ∧
    ((c1SplitResW a b q1 q2 q3 q4 c d x y).pHeap 0).vertices = [0, 2, 1] ∧
    ((c1SplitResW a b q1 q2 q3 q4 c d x y).pHeap 0).edges = [0, 1, 2] ∧
    ((c1SplitResW a b q1 q2 q3 q4 c d x y).pHeap 0).segList = [0, 1, 8, 4, 7] ∧
    (c1SplitResW a b q1 q2 q3 q4 c d x y).segHeap 1 =
      mkCubic (JNum.num x) (JNum.num y) (JNum.num q1) (JNum.num q2)
        (JNum.num q3) (JNum.num q4) ∧
    ((c1SplitResW a b q1 q2 q3 q4 c d x y).eHeap 0).segment = some 1 ∧
    ((c1SplitResW a b q1 q2 q3 q4 c d x y).eHeap 0).endV = some 2 ∧
    (c1SplitResW a b q1 q2 q3 q4 c d x y).segHeap 8 = mkLineto (JNum.num c) (JNum.num d) ∧
    ((c1SplitResW a b q1 q2 q3 q4 c d x y).eHeap 2).segment = some 8 ∧
    ((c1SplitResW a b q1 q2 q3 q4 c d x y).eHeap 2).start = some 2 ∧
    ((c1SplitResW a b q1 q2 q3 q4 c d x y).eHeap 2).endV = some 1 ∧
    ((c1SplitResW a b q1 q2 q3 q4 c d x y).vHeap 1).incoming = some 2) ∧
    (∀ (w : World) (e : EId) (x' y' : JNum),
      segmentIndex ((w.pHeap (w.eHeap e).path).segList) (w.eHeap e).segment = none →
      splitEdge w e x' y' = some (none, w)) := by
  have hor : ¬a = c ∨ ¬b = d := by
    rcases hne with h | h
    exacts [Or.inl h, Or.inr h]
  refine ⟨?_, ?_⟩
  · simp [c1SplitResW, c1CubicW, c1CubicDesc, splitEdge, createPath, newPathObj, pathCtor,
      runItems, dispatch, dispatchCore, handleMfull, handleMpre, handleMbody, handleZfull,
      handleZcore, acceptL, edgeAccept, acceptSeg, finishItem, popLastSeg, ctorFinish,
      createVertex, createEdge, World.allocSeg, World.updP, World.updV, World.updE,
      World.updSeg, hupd, jsSpliceIns, jsOrLen, isAbsMoveto, rel, pathLenPos, segsLenPos,
      mkMoveto, mkLineto, mkClose, mkCubic, hor, JNum.sne, JNum.seq, segmentIndex,
      List.indexOf?, List.findIdx?_nil, List.findIdx?_cons, Option.elim,
      List.insertIdx_zero, List.insertIdx_succ_cons, change]
  · intro w e x' y' hnone
    simp [splitEdge, hnone]

/-- Witness for C1 (amended): the concrete split of the cubic edge of
`M 0 0 C 10 20 30 40 50 60 Z` at `(7, 8)` returns vertex 2 and keeps the
cubic data on the original edge; splitting an unknown edge of the concrete
cubic world is a no-op. -/
theorem c1_split_edge_amended_witness :
    ((splitEdge (c1CubicW 0 0 10 20 30 40 50 60) 0 (JNum.num 7) (JNum.num 8)).map Prod.fst
        = some (some 2)) ∧
    (c1SplitResW 0 0 10 20 30 40 50 60 7 8).segHeap 1 =
      mkCubic (JNum.num 7) (JNum.num 8) (JNum.num 10) (JNum.num 20)
        (JNum.num 30) (JNum.num 40) ∧
    splitEdge cubicW 5 JNum.undef JNum.undef = some (none, cubicW) :=
  ⟨(c1_split_edge_amended 0 0 10 20 30 40 50 60 7 8 (Or.inl (by norm_num))).1.1,
   (c1_split_edge_amended 0 0 10 20 30 40 50 60 7 8
     (Or.inl (by norm_num))).1.2.2.2.2.2.2.2.2.1,
   (c1_split_edge_amended 0 0 10 20 30 40 50 60 7 8 (Or.inl (by norm_num))).2 cubicW 5
     JNum.undef JNum.undef (by decide)⟩

/-- **C2 counterexample.** Deleting the middle vertex of
`M 0 0 L 10 0 C 1 2 3 4 10 10 Z` (straight incoming edge, cubic outgoing
edge with control point `(1, 2)`): the merged incoming edge's path segment
stays a plain lineto — it takes the outgoing edge's far endpoint `(10, 10)`
but does not inherit the cubic kind or the control points, contrary to the
claim. -/
theorem c2_delete_counterexample :
    (triW.vHeap 1).incoming = some 0 ∧
    (triW.vHeap 1).outgoing = some 1 ∧
    (triW.eHeap 1).segment = some 4 ∧
    (triW.segHeap 4).kind = SegKind.C ∧
    (triW.segHeap 4).x1 = JNum.num 1 ∧
    (triW.segHeap 4).y1 = JNum.num 2 ∧
    (c2DelW.eHeap 0).segment = some 1 ∧
    (c2DelW.segHeap 1).kind = SegKind.L ∧
    (c2DelW.segHeap 1).x1 = JNum.undef ∧
    (c2DelW.segHeap 1).y1 = JNum.undef ∧
    (c2DelW.segHeap 1).x = JNum.num 10 ∧
    (c2DelW.segHeap 1).y = JNum.num 10 := by decide

set_option maxHeartbeats 4000000 in
/-- **C2 (amended).** Deleting the parametric triangle's middle vertex
merges the outgoing edge into the incoming edge: the incoming edge keeps
its own path segment (and hence its own kind and curve parameters) and only
takes the outgoing edge's far endpoint coordinates; the incoming edge is
rerouted to the next vertex, the outgoing edge's path segment leaves the
segment list, and the outgoing edge and the vertex are removed from the
path's arrays and released. -/
theorem c2_delete_vertex_amended (a b c d q1 q2 q3 q4 e f : ℚ) (hne : a ≠ e ∨ b ≠ f) :
    ((deleteVertex (c2TriW a b c d q1 q2 q3 q4 e f) 1).isSome = true ∧
    ((c2DelResW a b c d q1 q2 q3 q4 e f).eHeap 0).segment = some 1 ∧
    ((c2DelResW a b c d q1 q2 q3 q4 e f).eHeap 0).endV = some 2 ∧
    (c2DelResW a b c d q1 q2 q3 q4 e f).segHeap 1 = mkLineto (JNum.num e) (JNum.num f) ∧
    ((c2DelResW a b c d q1 q2 q3 q4 e f).vHeap 2).incoming = some 0 ∧
    ((c2DelResW a b c d q1 q2 q3 q4 e f).pHeap 0).vertices = [0, 2] ∧
    ((c2DelResW a b c d q1 q2 q3 q4 e f).pHeap 0).edges = [0, 2] ∧
    ((c2DelResW a b c d q1 q2 q3 q4 e f).pHeap 0).segList = [0, 1, 7, 10] ∧
    (c2DelResW a b c d q1 q2 q3 q4 e f).releasedE = [1] ∧
    (c2DelResW a b c d q1 q2 q3 q4 e f).releasedV = [1] ∧
    ((c2DelResW a b c d q1 q2 q3 q4 e f).eHeap 1).segment = none ∧
    ((c2DelResW a b c d q1 q2 q3 q4 e f).vHeap 1).incoming = none ∧
    ((c2DelResW a b c d q1 q2 q3 q4 e f).vHeap 1).outgoing = none) := by
  have hor : ¬a = e ∨ ¬b = f := by
    rcases hne with h | h
    exacts [Or.inl h, Or.inr h]
  simp [c2DelResW, c2TriW, c2TriDesc, deleteVertex, deleteVertexLast, createPath, newPathObj,
    pathCtor, runItems, dispatch, dispatchCore, handleMfull, handleMpre, handleMbody,
    handleZfull, handleZcore, acceptL, edgeAccept, acceptSeg, finishItem, popLastSeg,
    ctorFinish, createVertex, createEdge, World.allocSeg, World.updP, World.updV, World.updE,
    World.updSeg, hupd, jsSpliceIns, jsOrLen, isAbsMoveto, rel, pathLenPos, segsLenPos,
    mkMoveto, mkLineto, mkClose, mkCubic, hor, JNum.sne, JNum.seq, segmentIndex,
    jsRemoveElem, releaseEdge, releaseVertex, releasePath, edgeLenZero, change,
    List.indexOf?, List.findIdx?_nil, List.findIdx?_cons, Option.elim,
    List.insertIdx_zero, List.insertIdx_succ_cons]

/-- Witness for C2 (amended): deleting the middle vertex of the concrete
triangle `M 0 0 L 10 0 C 1 2 3 4 10 10 Z` succeeds and leaves the incoming
edge's segment a lineto to `(10, 10)`. -/
theorem c2_delete_vertex_amended_witness :
    (deleteVertex (c2TriW 0 0 10 0 1 2 3 4 10 10) 1).isSome = true ∧
    (c2DelResW 0 0 10 0 1 2 3 4 10 10).segHeap 1 =
      mkLineto (JNum.num 10) (JNum.num 10) :=
  ⟨(c2_delete_vertex_amended 0 0 10 0 1 2 3 4 10 10 (Or.inl (by norm_num))).1,
   (c2_delete_vertex_amended 0 0 10 0 1 2 3 4 10 10 (Or.inl (by norm_num))).2.2.2.1⟩
